import Mathlib

/-!
# Reactor event loop: slot pool, buffered I/O and the hiredis adapter

A shallow embedding of `reactor.h`, `reactor.c`, `adapter_async.h` and of `read_cb`
of `server.c`.

* An `event_t *` that points into the reactor's slot pool is the index of the slot.
* The array `r->events` is a map from indices to `event_t`; only the indices below
  `MAX_CONN` are inside the `malloc`ed block, and an access outside of it is a `Fault`.
* The kernel side (epoll interest list, what `read`/`write` return, what reached the
  descriptor) is the record `Sys`; every system call made is appended to `Sys.log`.
* What `printf` prints is not modelled. The one call that can read outside its
  argument, `printf("...%s", buf)` in `event_buffer_read`, is a `Fault` when it does.
* The `int` counter of `event_buffer_read` is an integer that may not pass `INT_MAX`.
-/

namespace Reactor

/-! ## Constants -/

/-- The macro `MAX_EVENT_NUM` of `reactor.h`, 512. -/
def MAX_EVENT_NUM : Nat := 512

/-- The macro `MAX_CONN` of `reactor.h`, `((1<<16)-1)`. -/
def MAX_CONN : Nat := (1 <<< 16) - 1

/-- The constant `EPOLLIN` of `<sys/epoll.h>`. -/
def EPOLLIN : Nat := 1

/-- The constant `EPOLLOUT` of `<sys/epoll.h>`. -/
def EPOLLOUT : Nat := 4

/-- The constant `EPOLLERR` of `<sys/epoll.h>`. -/
def EPOLLERR : Nat := 8

/-- The constant `EPOLLHUP` of `<sys/epoll.h>`. -/
def EPOLLHUP : Nat := 16

/-- One byte of payload. -/
abbrev Byte := Nat

/-! ## Memory faults -/

/-- Undefined behaviour the embedding detects; execution stops there. -/
inductive Fault where
  /-- a read of `r->events[idx]` with `idx` outside the `MAX_CONN` allocated entries -/
  | oobRead (idx : Nat)
  /-- a write through `&r->events[idx]` with `idx` outside the allocated entries -/
  | oobWrite (idx : Nat)
  /-- the `assert` of `new_event` failed -/
  | assertFailed
  /-- a buffer operation on a NULL buffer pointer -/
  | nullBuffer
  /-- a buffer operation on a buffer that `buffer_free` has released -/
  | useAfterFree
  /-- the pointer `(char *)buf + n` with negative `n`: a read in front of the bytes given -/
  | badPointer
  /-- a read behind the end of a local `char` array: `printf("%s", buf)` on a `buf` that
  holds no zero byte -/
  | unterminatedString
  /-- an `int` addition whose result is above `INT_MAX` -/
  | intOverflow
  deriving DecidableEq, Repr

/-! ## Buffer collaborator (`chainbuffer/buffer.h`, not part of the sources) -/

/-- Modelled from the spec: the `buffer_t *` fields `in` and `out` of an event. The
chain buffer itself is missing from the sources; the spec gives it as an
append-only, consumable byte buffer. A pointer is NULL, points to a live buffer
with the given content, or dangles after `buffer_free`. -/
inductive buffer_ptr where
  | null
  | live (bytes : List Byte)
  | released
  deriving DecidableEq, Repr

/-- Modelled from the spec: `buffer_new(sz)` is missing from the sources; the spec says
`register_event` attaches fresh empty buffers. -/
def buffer_new (_sz : Nat) : buffer_ptr := buffer_ptr.live []

/-- Modelled from the spec: `buffer_len` is missing from the sources; `length() -> size`. -/
def buffer_len : buffer_ptr → Except Fault Nat
  | buffer_ptr.null => Except.error Fault.nullBuffer
  | buffer_ptr.released => Except.error Fault.useAfterFree
  | buffer_ptr.live bs => Except.ok bs.length

/-- Modelled from the spec: `buffer_add` is missing from the sources; `append(bytes)`. -/
def buffer_add : buffer_ptr → List Byte → Except Fault buffer_ptr
  | buffer_ptr.null, _ => Except.error Fault.nullBuffer
  | buffer_ptr.released, _ => Except.error Fault.useAfterFree
  | buffer_ptr.live bs, data => Except.ok (buffer_ptr.live (bs ++ data))

/-- Modelled from the spec: `buffer_free` is missing from the sources; the spec says
unregistering "releases both buffers". Releasing through a NULL pointer leaves it NULL. -/
def buffer_free : buffer_ptr → buffer_ptr
  | buffer_ptr.null => buffer_ptr.null
  | _ => buffer_ptr.released

/-- Modelled from the spec: `buffer_write_atmost` is missing from the sources; it hands
out a pointer to the bytes the buffer holds, leaving the buffer as it is. -/
def buffer_write_atmost : buffer_ptr → Except Fault (List Byte)
  | buffer_ptr.null => Except.error Fault.nullBuffer
  | buffer_ptr.released => Except.error Fault.useAfterFree
  | buffer_ptr.live bs => Except.ok bs

/-! ## `struct event_s` and `struct reactor_s` -/

/-- The `struct event_s` record. A callback is `none` for a null function pointer and
`some id` for the function `id`; `r` is the address of the owning reactor (0 is NULL). -/
structure event_t where
  fd : Int
  r : Nat
  inb : buffer_ptr
  out : buffer_ptr
  read_fn : Option Nat
  write_fn : Option Nat
  error_fn : Option Nat
  deriving DecidableEq, Repr

/-- What `memset(.., 0, ..)` leaves in a slot. -/
def event_t.zero : event_t :=
  { fd := 0, r := 0, inb := buffer_ptr.null, out := buffer_ptr.null,
    read_fn := none, write_fn := none, error_fn := none }

/-- The `struct reactor_s` record without the epoll descriptor and the `fire` scratch
array (the interest list of `epfd` is `Sys.interest`, the fired results are an
argument of `eventloop_once`). `addr` is the address of the record itself, `events`
is the array: the entries `0 .. MAX_CONN - 1` are the allocated ones. The cursor
`iter` starts at 0 and is only ever incremented; it is a natural number here, the
overflow of the C `int` is out of reach of every run considered. -/
structure reactor_t where
  addr : Nat
  listenfd : Int
  stop : Int
  events : Nat → event_t
  iter : Nat

/-- What `create_reactor` returns (at address `addr`). -/
def create_reactor (addr : Nat) : reactor_t :=
  { addr := addr, listenfd := 0, stop := 0, events := fun _ => event_t.zero, iter := 0 }

/-- The array with entry `i` replaced. -/
def setSlot (events : Nat → event_t) (i : Nat) (e : event_t) : Nat → event_t :=
  fun j => if j = i then e else events j

/-! ## Slot allocation -/

/-- The loop `while (r->events[r->iter & MAX_CONN].fd > 0) r->iter++;` of
`_get_event_t`, from cursor value `iter`; the result is the cursor at loop exit. -/
def scan (events : Nat → event_t) (iter : Nat) : Except Fault Nat :=
  if h : iter &&& MAX_CONN < MAX_CONN then
    if (events (iter &&& MAX_CONN)).fd > 0 then scan events (iter + 1)
    else Except.ok iter
  else Except.error (Fault.oobRead (iter &&& MAX_CONN))
termination_by MAX_CONN - (iter &&& MAX_CONN)
decreasing_by
  have h1 : MAX_CONN = 2 ^ 16 - 1 := by decide
  rw [h1, Nat.and_pow_two_sub_one_eq_mod] at h
  rw [h1, Nat.and_pow_two_sub_one_eq_mod, Nat.and_pow_two_sub_one_eq_mod]
  omega

/-- The function `_get_event_t`: the reactor with the advanced cursor and the pointer
`&r->events[r->iter]` (as an index, not reduced by the mask). -/
def _get_event_t (r : reactor_t) : Except Fault (reactor_t × Nat) :=
  match scan r.events (r.iter + 1) with
  | Except.error f => Except.error f
  | Except.ok it => Except.ok ({ r with iter := it }, it)

/-- The function `new_event`. -/
def new_event (R : reactor_t) (fd : Int) (rd wt : Option Nat) (err : Option Nat) :
    Except Fault (reactor_t × Nat) :=
  if rd = none ∧ wt = none ∧ err = none then Except.error Fault.assertFailed
  else
    match _get_event_t R with
    | Except.error f => Except.error f
    | Except.ok (R1, e) =>
      if e < MAX_CONN then
        let ev : event_t :=
          { fd := fd, r := R.addr, inb := buffer_new (16 * 1024),
            out := buffer_new (16 * 1024), read_fn := rd, write_fn := wt, error_fn := err }
        Except.ok ({ R1 with events := setSlot R1.events e ev }, e)
      else Except.error (Fault.oobWrite e)

/-- Registers the descriptors `fds` one after the other through `new_event` (read
callback `rd`, no other callback); the result lists the slots returned, in order. -/
def register_all (rd : Nat) : List Int → reactor_t → Except Fault (reactor_t × List Nat)
  | [], R => Except.ok (R, [])
  | fd :: fds, R =>
    match new_event R fd (some rd) none none with
    | Except.error f => Except.error f
    | Except.ok (R1, e) =>
      match register_all rd fds R1 with
      | Except.error f => Except.error f
      | Except.ok (R2, es) => Except.ok (R2, e :: es)

/-! ## The kernel side -/

/-- The `errno` values the code tells apart; `hard code` is any other one. -/
inductive Errno where
  | EINTR
  | EWOULDBLOCK
  | hard (code : Nat)
  deriving DecidableEq, Repr

/-- What one `read(fd, buf, 1024)` call does: it returns the bytes `bs` (none of them
at end of stream) or fails with an `errno`. -/
inductive ReadResult where
  | ret (bs : List Byte)
  | fail (e : Errno)
  deriving DecidableEq, Repr

/-- What one `write(fd, buf, sz)` call does: the kernel takes up to `k` of the bytes
offered, or the call fails with an `errno`. -/
inductive WriteResult where
  | accept (k : Nat)
  | fail (e : Errno)
  deriving DecidableEq, Repr

/-- The operation argument of `epoll_ctl`. -/
inductive CtlOp where
  | ADD
  | MOD
  | DEL
  deriving DecidableEq, Repr

/-- One entry of the call log. -/
inductive Call where
  | epoll_ctl (op : CtlOp) (fd : Int) (events : Nat)
  | read (fd : Int)
  | write (fd : Int) (offered : List Byte)
  | close (fd : Int)
  | error_fn (fn : Nat) (fd : Int)
  | free_event (fd : Int)
  | callback (fn : Nat) (fd : Int) (events : Nat) (privdata : Nat)
  deriving DecidableEq, Repr

/-- The state outside the process memory: per descriptor, the event mask registered in
the interest list of the reactor's epoll instance, the results the coming `read` and
`write` calls will give (when the list is used up the call fails with `EWOULDBLOCK`),
the bytes the descriptor has taken so far; and the log of calls. -/
structure Sys where
  interest : Int → Option Nat
  rd : Int → List ReadResult
  wr : Int → List WriteResult
  sent : Int → List Byte
  log : List Call

/-- A per-descriptor table with the entry of `fd` replaced. -/
def upd {α : Type} (f : Int → α) (fd : Int) (v : α) : Int → α :=
  fun x => if x = fd then v else f x

/-- The system call `epoll_ctl(epfd, op, fd, &ev)` with `ev.events = events`: `ADD`
fails on a registered descriptor, `MOD` and `DEL` fail on an unregistered one. -/
def epoll_ctl (s : Sys) (op : CtlOp) (fd : Int) (events : Nat) : Int × Sys :=
  let s1 : Sys := { s with log := s.log ++ [Call.epoll_ctl op fd events] }
  match op, s.interest fd with
  | CtlOp.ADD, none => (0, { s1 with interest := upd s.interest fd (some events) })
  | CtlOp.ADD, some _ => (-1, s1)
  | CtlOp.MOD, some _ => (0, { s1 with interest := upd s.interest fd (some events) })
  | CtlOp.MOD, none => (-1, s1)
  | CtlOp.DEL, some _ => (0, { s1 with interest := upd s.interest fd none })
  | CtlOp.DEL, none => (-1, s1)

/-- The system call `close(fd)`; a closed descriptor leaves the interest list. -/
def close (s : Sys) (fd : Int) : Sys :=
  { s with interest := upd s.interest fd none, log := s.log ++ [Call.close fd] }

/-- A call `e->error_fn(fd, msg)` when the pointer is set. The repository installs no
error callback anywhere, so the call is recorded and has no other effect. -/
def call_error_fn (e : event_t) (fd : Int) (s : Sys) : Sys :=
  match e.error_fn with
  | none => s
  | some fn => { s with log := s.log ++ [Call.error_fn fn fd] }

/-! ## Registration (`reactor.c`) -/

/-- The function `evbuf_in`. -/
def evbuf_in (e : event_t) : buffer_ptr := e.inb

/-- The function `evbuf_out`. -/
def evbuf_out (e : event_t) : buffer_ptr := e.out

/-- The function `event_base`. -/
def event_base (e : event_t) : Nat := e.r

/-- The function `free_event`: both buffers are released, no field of `*e` is assigned. -/
def free_event (e : event_t) (s : Sys) : event_t × Sys :=
  ({ e with inb := buffer_free e.inb, out := buffer_free e.out },
   { s with log := s.log ++ [Call.free_event e.fd] })

/-- The function `add_event`. -/
def add_event (s : Sys) (events : Nat) (e : event_t) : Int × Sys :=
  let r := epoll_ctl s CtlOp.ADD e.fd events
  if r.1 = -1 then (1, r.2) else (0, r.2)

/-- The function `del_event`. -/
def del_event (e : event_t) (s : Sys) : event_t × Sys :=
  free_event e (epoll_ctl s CtlOp.DEL e.fd 0).2

/-- The function `enable_event`. -/
def enable_event (s : Sys) (e : event_t) (readable writeable : Int) : Int × Sys :=
  let events := (if readable ≠ 0 then EPOLLIN else 0) ||| (if writeable ≠ 0 then EPOLLOUT else 0)
  let r := epoll_ctl s CtlOp.MOD e.fd events
  if r.1 = -1 then (1, r.2) else (0, r.2)

/-- The reactor and the kernel side together. -/
structure World where
  R : reactor_t
  s : Sys

/-- The world with slot `i` of the pool holding `e` and with kernel side `s`. -/
def setEvent (w : World) (i : Nat) (e : event_t) (s : Sys) : World :=
  { R := { w.R with events := setSlot w.R.events i e }, s := s }

/-- The call `del_event(R, e)` for the pointer `e` to slot `i` of the pool. -/
def del_event_at (w : World) (i : Nat) : World :=
  let r := del_event (w.R.events i) w.s
  setEvent w i r.1 r.2

/-- The calls `del_event(R, e)` for the slots listed, in that order. -/
def del_all : List Nat → World → World
  | [], w => w
  | i :: is, w => del_all is (del_event_at w i)

/-- The kernel side at program start: nothing registered, nothing pending. -/
def Sys.init : Sys :=
  { interest := fun _ => none, rd := fun _ => [], wr := fun _ => [],
    sent := fun _ => [], log := [] }

/-- The slot-reuse scenario for the descriptors `fds`: register them all on a fresh
reactor, unregister the slots obtained in the order `order` picks, register again. -/
def slot_reuse (fds : List Int) (order : List Nat → List Nat) :
    Except Fault (reactor_t × List Nat) :=
  match register_all 2 fds (create_reactor 1) with
  | Except.error f => Except.error f
  | Except.ok (R1, es) =>
    register_all 2 fds (del_all (order es) { R := R1, s := Sys.init }).R

/-! ## Buffered non-blocking I/O (`reactor.c`) -/

/-- The largest value of an `int`. -/
def INT_MAX : Int := 2147483647

/-- The loop of `event_buffer_read`, one `read(fd, buf, 1024)` call per round into the
zero-filled `char buf[1024]`; the first argument lists what the coming `read` calls on
`fd` give. After a read of `n > 0` bytes the body runs `printf("...%s", buf)`, which
reads `buf` up to its first zero byte and finds none inside the array when all 1024
bytes were filled with non-zero bytes, then `buffer_add`, then `num += n` on the `int`
counter. The result is the value returned, the event, the kernel side and the `read`
results not used up. -/
def event_buffer_read_loop (fd : Int) :
    List ReadResult → Int → event_t → Sys → Except Fault (Int × event_t × Sys × List ReadResult)
  | [], num, e, s =>
    -- nothing pending: `read` fails with `EWOULDBLOCK`, `break`
    Except.ok (num, e, { s with log := s.log ++ [Call.read fd] }, [])
  | ReadResult.ret bs :: rest, num, e, s =>
    let s1 : Sys := { s with log := s.log ++ [Call.read fd] }
    let got := bs.take 1024
    let n : Int := got.length
    if n = 0 then
      let s2 := call_error_fn e fd s1
      let r := del_event e s2
      Except.ok (0, r.1, close r.2 fd, rest)
    else if got.length = 1024 ∧ (0 : Byte) ∉ got then
      Except.error Fault.unterminatedString
    else
      match buffer_add (evbuf_in e) got with
      | Except.error f => Except.error f
      | Except.ok b =>
        if num + n > INT_MAX then Except.error Fault.intOverflow
        else event_buffer_read_loop fd rest (num + n) { e with inb := b } s1
  | ReadResult.fail Errno.EINTR :: rest, num, e, s =>
    event_buffer_read_loop fd rest num e { s with log := s.log ++ [Call.read fd] }
  | ReadResult.fail Errno.EWOULDBLOCK :: rest, num, e, s =>
    Except.ok (num, e, { s with log := s.log ++ [Call.read fd] }, rest)
  | ReadResult.fail (Errno.hard _) :: rest, _, e, s =>
    let s1 : Sys := { s with log := s.log ++ [Call.read fd] }
    let s2 := call_error_fn e fd s1
    let r := del_event e s2
    Except.ok (0, r.1, close r.2 fd, rest)

/-- The function `event_buffer_read`. -/
def event_buffer_read (e : event_t) (s : Sys) : Except Fault (Int × event_t × Sys) :=
  let fd := e.fd
  match event_buffer_read_loop fd (s.rd fd) 0 e s with
  | Except.error f => Except.error f
  | Except.ok (num, e1, s1, rest) => Except.ok (num, e1, { s1 with rd := upd s1.rd fd rest })

/-- The loop of `_write_socket` for the `sz = buf.length` bytes `buf`, one
`write(fd, buf, sz)` call per round; the first argument lists what the coming
`write` calls on `fd` give. -/
def _write_socket_loop (fd : Int) (buf : List Byte) :
    List WriteResult → event_t → Sys → Int × event_t × Sys × List WriteResult
  | [], e, s =>
    -- the kernel takes nothing: `write` fails with `EWOULDBLOCK`, `break`, `return 0`
    (0, e, { s with log := s.log ++ [Call.write fd buf] }, [])
  | WriteResult.accept k :: rest, e, s =>
    let n := min k buf.length
    ((n : Int), e, { s with sent := upd s.sent fd (s.sent fd ++ buf.take n),
                            log := s.log ++ [Call.write fd buf] }, rest)
  | WriteResult.fail Errno.EINTR :: rest, e, s =>
    _write_socket_loop fd buf rest e { s with log := s.log ++ [Call.write fd buf] }
  | WriteResult.fail Errno.EWOULDBLOCK :: rest, e, s =>
    (0, e, { s with log := s.log ++ [Call.write fd buf] }, rest)
  | WriteResult.fail (Errno.hard _) :: rest, e, s =>
    let s1 : Sys := { s with log := s.log ++ [Call.write fd buf] }
    let s2 := call_error_fn e fd s1
    let r := del_event e s2
    (-1, r.1, close r.2 e.fd, rest)

/-- The function `_write_socket`. -/
def _write_socket (e : event_t) (buf : List Byte) (s : Sys) : Int × event_t × Sys :=
  let fd := e.fd
  let r := _write_socket_loop fd buf (s.wr fd) e s
  (r.1, r.2.1, { r.2.2.1 with wr := upd r.2.2.1.wr fd r.2.2.2 })

/-- The function `event_buffer_write` for the `sz = buf.length` bytes `buf`. The local
`out` is the pointer read at entry; what it points to is the `out` field of the event
as `_write_socket` left it. -/
def event_buffer_write (e : event_t) (buf : List Byte) (s : Sys) :
    Except Fault (Int × event_t × Sys) :=
  let sz : Int := buf.length
  match buffer_len (evbuf_out e) with
  | Except.error f => Except.error f
  | Except.ok len =>
    if len = 0 then
      let w := _write_socket e buf s
      let n := w.1
      let e1 := w.2.1
      if n = 0 ∨ n < sz then
        -- `buffer_add(out, (char *)buf+n, sz-n)`
        match buffer_add (evbuf_out e1) (buf.drop n.toNat) with
        | Except.error f => Except.error f
        | Except.ok b =>
          if n < 0 then Except.error Fault.badPointer
          else
            let e2 := { e1 with out := b }
            Except.ok (0, e2, (enable_event w.2.2 e2 1 1).2)
      else if n < 0 then Except.ok (0, e1, w.2.2)
      else Except.ok (1, e1, w.2.2)
    else
      match buffer_add (evbuf_out e) buf with
      | Except.error f => Except.error f
      | Except.ok b => Except.ok (1, { e with out := b }, s)

/-! ## The loop (`reactor.c`) -/

/-- The `struct epoll_event` record: the fired mask and `data.ptr`, a pointer to a slot
of the pool. -/
structure epoll_event where
  events : Nat
  ptr : Nat
  deriving DecidableEq, Repr

/-- What a call `fn(fd, events, privdata)` of the callback `fn` does. -/
abbrev Callbacks := Nat → Int → Nat → Nat → World → Except Fault World

/-- The read of `*et` for a pointer `et` taken from `data.ptr`. -/
def deref (w : World) (et : Nat) : Except Fault event_t :=
  if et < MAX_CONN then Except.ok (w.R.events et) else Except.error (Fault.oobRead et)

/-- The body of the `for` loop of `eventloop_once` for one fired result. -/
def dispatch (cb : Callbacks) (w : World) (ev : epoll_event) : Except Fault World :=
  let mask0 := ev.events
  let mask1 := if ev.events &&& EPOLLERR ≠ 0 then mask0 ||| (EPOLLIN ||| EPOLLOUT) else mask0
  let mask := if ev.events &&& EPOLLHUP ≠ 0 then mask1 ||| (EPOLLIN ||| EPOLLOUT) else mask1
  let et := ev.ptr
  let afterRead : Except Fault World :=
    if mask &&& EPOLLIN ≠ 0 then
      match deref w et with
      | Except.error f => Except.error f
      | Except.ok e =>
        match e.read_fn with
        | some fn => cb fn e.fd EPOLLIN et w
        | none => Except.ok w
    else Except.ok w
  match afterRead with
  | Except.error f => Except.error f
  | Except.ok w1 =>
    if mask &&& EPOLLOUT ≠ 0 then
      match deref w1 et with
      | Except.error f => Except.error f
      | Except.ok e =>
        match e.write_fn with
        | some fn => cb fn e.fd EPOLLOUT et w1
        | none =>
          match buffer_write_atmost (evbuf_out e) with
          | Except.error f => Except.error f
          | Except.ok buf =>
            match event_buffer_write e buf w1.s with
            | Except.error f => Except.error f
            | Except.ok r => Except.ok (setEvent w1 et r.2.1 r.2.2)
    else Except.ok w1

/-- The `for` loop of `eventloop_once` over the fired results. -/
def dispatch_all (cb : Callbacks) : List epoll_event → World → Except Fault World
  | [], w => Except.ok w
  | ev :: evs, w =>
    match dispatch cb w ev with
    | Except.error f => Except.error f
    | Except.ok w1 => dispatch_all cb evs w1

/-- The function `eventloop_once`; `n` is what `epoll_wait` returned and `fire` what it
left in `r->fire`. -/
def eventloop_once (cb : Callbacks) (w : World) (n : Int) (fire : List epoll_event) :
    Except Fault World :=
  dispatch_all cb (fire.take n.toNat) w

/-- Runs `eventloop_once` once per entry of `rounds`, each entry being the results of
one `epoll_wait`. -/
def eventloop_rounds (cb : Callbacks) : List (List epoll_event) → World → Except Fault World
  | [], w => Except.ok w
  | fire :: more, w =>
    match eventloop_once cb w fire.length fire with
    | Except.error f => Except.error f
    | Except.ok w1 => eventloop_rounds cb more w1

/-! ## The hiredis adapter (`adapter_async.h`) -/

/-- The address of `redisReadHandler`. -/
def redisReadHandler : Nat := 3

/-- The address of `redisWriteHandler`. -/
def redisWriteHandler : Nat := 4

/-- The `redis_event_t` record; `ctx` is the address of the hiredis context. -/
structure redis_event_t where
  e : event_t
  mask : Nat
  ctx : Nat
  deriving DecidableEq, Repr

/-- The complement `~x` of a 32-bit `int` with bits `x`. -/
def int_not (x : Nat) : Nat := (2 ^ 32 - 1) ^^^ x

/-- The function `redisEventUpdate`. -/
def redisEventUpdate (re : redis_event_t) (flag : Nat) (remove : Int) (s : Sys) :
    redis_event_t × Sys :=
  let prevMask := re.mask
  let step (re1 : redis_event_t) (enable : Int) : redis_event_t × Sys :=
    if re1.mask = 0 then
      let r := del_event re1.e s
      ({ re1 with e := r.1 }, r.2)
    else if prevMask = 0 then
      (re1, (add_event s re1.mask re1.e).2)
    else if flag &&& EPOLLIN ≠ 0 then
      (re1, (enable_event s re1.e enable 0).2)
    else if flag &&& EPOLLOUT ≠ 0 then
      (re1, (enable_event s re1.e 0 enable).2)
    else (re1, s)
  if remove ≠ 0 then
    if re.mask &&& flag = 0 then (re, s)
    else step { re with mask := re.mask &&& int_not flag } 0
  else
    if re.mask &&& flag ≠ 0 then (re, s)
    else step { re with mask := re.mask ||| flag } 1

/-- The function `redisAddRead`. -/
def redisAddRead (re : redis_event_t) (s : Sys) : redis_event_t × Sys :=
  redisEventUpdate { re with e := { re.e with read_fn := some redisReadHandler } } EPOLLIN 0 s

/-- The function `redisDelRead`. -/
def redisDelRead (re : redis_event_t) (s : Sys) : redis_event_t × Sys :=
  redisEventUpdate { re with e := { re.e with read_fn := none } } EPOLLIN 1 s

/-- The function `redisAddWrite`. -/
def redisAddWrite (re : redis_event_t) (s : Sys) : redis_event_t × Sys :=
  redisEventUpdate { re with e := { re.e with write_fn := some redisWriteHandler } } EPOLLOUT 0 s

/-- The function `redisDelWrite`. -/
def redisDelWrite (re : redis_event_t) (s : Sys) : redis_event_t × Sys :=
  redisEventUpdate { re with e := { re.e with write_fn := none } } EPOLLOUT 1 s

/-- The function `redisCleanup`; `hi_free(re)` ends the bridge, the event it held is
returned for inspection. -/
def redisCleanup (re : redis_event_t) (s : Sys) : event_t × Sys :=
  del_event re.e s

/-- The bridge `redisAttach` builds for a connection with descriptor `fd`, context
address `ctx` and reactor address `r`. -/
def attached (r : Nat) (ctx : Nat) (fd : Int) (e0 : event_t) : redis_event_t :=
  { e := { e0 with fd := fd, r := r, inb := buffer_ptr.null, out := buffer_ptr.null },
    mask := 0, ctx := ctx }

/-- The four interest hooks hiredis calls on a bridge. -/
inductive Hook where
  | addRead
  | delRead
  | addWrite
  | delWrite
  deriving DecidableEq, Repr

/-- One hook call. -/
def Hook.run : Hook → redis_event_t → Sys → redis_event_t × Sys
  | Hook.addRead => redisAddRead
  | Hook.delRead => redisDelRead
  | Hook.addWrite => redisAddWrite
  | Hook.delWrite => redisDelWrite

/-- A sequence of hook calls, in order. -/
def run_hooks : List Hook → redis_event_t → Sys → redis_event_t × Sys
  | [], re, s => (re, s)
  | h :: hs, re, s => run_hooks hs (h.run re s).1 (h.run re s).2

/-! ## Scenarios and invariants used in the statements -/

/-- The descriptors `3, 4, .., n + 2`. -/
def descriptors (n : Nat) : List Int := (List.range n).map (fun (i : Nat) => (i : Int) + 3)

/-- A pool in which every slot holds a live event (slot `i` has descriptor `i + 3`),
with the cursor at 0. -/
def full_reactor : reactor_t :=
  { addr := 1, listenfd := 0, stop := 0, iter := 0,
    events := fun i =>
      event_t.mk ((i : Int) + 3) 1 (buffer_ptr.live []) (buffer_ptr.live []) (some 2) none none }

/-- Every slot behind the cursor is unused. -/
def fresh_above (R : reactor_t) : Prop := ∀ i, R.iter < i → (R.events i).fd ≤ 0

/-- The reactor after `new_event` took the slot right behind the cursor. -/
def after_new_event (R : reactor_t) (fd : Int) (rd : Nat) : reactor_t :=
  { R with iter := R.iter + 1,
           events := setSlot R.events (R.iter + 1)
             (event_t.mk fd R.addr (buffer_ptr.live []) (buffer_ptr.live []) (some rd) none none) }

/-- The event `e` with the content of its output buffer replaced by `bs`. -/
def with_out (e : event_t) (bs : List Byte) : event_t :=
  { e with out := buffer_ptr.live bs }

/-- The call `event_buffer_write(e, buf, sz)` for the pointer `e` to slot `i` of the pool. -/
def event_buffer_write_at (w : World) (i : Nat) (buf : List Byte) : Except Fault (Int × World) :=
  match event_buffer_write (w.R.events i) buf w.s with
  | Except.error f => Except.error f
  | Except.ok r => Except.ok (r.1, setEvent w i r.2.1 r.2.2)

/-- A connection as `accept_cb` sets it up (descriptor 5 in slot 1, registered for
`EPOLLIN`) but with no callback other than a read callback; `script` lists what the
coming `write` calls on the descriptor give. -/
def connected (script : List WriteResult) : World :=
  { R := after_new_event (create_reactor 1) 5 2,
    s := (add_event { Sys.init with wr := upd Sys.init.wr 5 script } EPOLLIN
            ((after_new_event (create_reactor 1) 5 2).events 1)).2 }

/-- The backlog scenario: on the connection `connected script`, `event_buffer_write` of
`A`, then of `B`, then `rounds` passes of `eventloop_once`, each with the one fired
result "slot 1 is writable". -/
def backlog_scenario (cb : Callbacks) (A B : List Byte) (script : List WriteResult)
    (rounds : Nat) : Except Fault World :=
  match event_buffer_write_at (connected script) 1 A with
  | Except.error f => Except.error f
  | Except.ok r1 =>
    match event_buffer_write_at r1.2 1 B with
    | Except.error f => Except.error f
    | Except.ok r2 =>
      eventloop_rounds cb (List.replicate rounds [epoll_event.mk EPOLLOUT 1]) r2.2

/-- An event as `new_event` builds it for descriptor 5, with error callback 7. -/
def sample_event : event_t :=
  event_t.mk 5 1 (buffer_ptr.live []) (buffer_ptr.live []) (some 2) none (some 7)

/-- The kernel side with descriptor 5 registered for `EPOLLIN` and the given results of
the coming `read` and `write` calls on it. -/
def sample_sys (rd : List ReadResult) (wr : List WriteResult) : Sys :=
  { interest := upd (fun _ => none) 5 (some EPOLLIN), rd := upd (fun _ => []) 5 rd,
    wr := upd (fun _ => []) 5 wr, sent := fun _ => [], log := [] }

/-! ## The loop to its end (`reactor.c`) -/

/-- The function `stop_eventloop`. -/
def stop_eventloop (r : reactor_t) : reactor_t := { r with stop := 1 }

/-- What one `epoll_wait` call gives: its return value and what it left in `r->fire`. -/
structure wait_result where
  n : Int
  fire : List epoll_event
  deriving DecidableEq, Repr

/-- The function `eventloop`; the first argument lists what the coming `epoll_wait`
calls give. The result is the world at the end, the `epoll_wait` results not used,
and whether the function has returned (`false`: the loop sits in an `epoll_wait` for
which no result is listed). -/
def eventloop (cb : Callbacks) :
    List wait_result → World → Except Fault (World × List wait_result × Bool)
  | [], w => Except.ok (w, [], decide (w.R.stop ≠ 0))
  | wr :: rest, w =>
    if w.R.stop ≠ 0 then Except.ok (w, wr :: rest, true)
    else
      match eventloop_once cb w wr.n wr.fire with
      | Except.error f => Except.error f
      | Except.ok w1 => eventloop cb rest w1

/-! ## The echo server (`server.c`) -/

/-- Whether the bytes `bs` start with the bytes `pat`. -/
def starts_with : List Byte → List Byte → Bool
  | _, [] => true
  | [], _ :: _ => false
  | b :: bs, p :: ps => b == p && starts_with bs ps

/-- The offset of the first place in `bs`, counted from `i`, where `pat` starts; -1
when there is none. -/
def offset_of (pat : List Byte) : List Byte → Nat → Int
  | [], _ => -1
  | b :: bs, i => if starts_with (b :: bs) pat then (i : Int) else offset_of pat bs (i + 1)

/-- Modelled from the spec: `buffer_search` is missing from the sources; the spec gives
`search(pattern) -> offset-or-not-found`. Not found is -1 here. -/
def buffer_search : buffer_ptr → List Byte → Except Fault Int
  | buffer_ptr.null, _ => Except.error Fault.nullBuffer
  | buffer_ptr.released, _ => Except.error Fault.useAfterFree
  | buffer_ptr.live bs, pat => Except.ok (offset_of pat bs 0)

/-- Modelled from the spec: `buffer_remove` is missing from the sources; the spec gives
`remove_front(n) -> bytes`. The result is the bytes taken out and the buffer left. -/
def buffer_remove : buffer_ptr → Nat → Except Fault (List Byte × buffer_ptr)
  | buffer_ptr.null, _ => Except.error Fault.nullBuffer
  | buffer_ptr.released, _ => Except.error Fault.useAfterFree
  | buffer_ptr.live bs, n => Except.ok (bs.take n, buffer_ptr.live (bs.drop n))

/-- The type of `buffer_search`, which `read_cb` takes as a parameter. -/
abbrev Search := buffer_ptr → List Byte → Except Fault Int

/-- The body of `read_cb` of `server.c` on the event `*e`. The pattern `"\n"` is the one
byte 10; `buf` is the zero-filled array of which `buffer_remove` fills the front. -/
def read_cb_event (search : Search) (e : event_t) (s : Sys) : Except Fault (event_t × Sys) :=
  match event_buffer_read e s with
  | Except.error f => Except.error f
  | Except.ok (n, e1, s1) =>
    if n > 0 then
      match search (evbuf_in e1) [10] with
      | Except.error f => Except.error f
      | Except.ok len =>
        if len > 0 ∧ len < 1024 then
          match buffer_remove (evbuf_in e1) len.toNat with
          | Except.error f => Except.error f
          | Except.ok (got, b) =>
            let buf := got ++ List.replicate (len.toNat - got.length) 0
            match event_buffer_write { e1 with inb := b } buf s1 with
            | Except.error f => Except.error f
            | Except.ok r => Except.ok (r.2.1, r.2.2)
        else Except.ok (e1, s1)
    else Except.ok (e1, s1)

/-- The function `read_cb` of `server.c`, with `privdata` pointing to a slot of the pool. -/
def read_cb (search : Search) : Int → Nat → Nat → World → Except Fault World :=
  fun _fd _events privdata w =>
    match read_cb_event search (w.R.events privdata) w.s with
    | Except.error f => Except.error f
    | Except.ok r => Except.ok (setEvent w privdata r.1 r.2)

/-- The address of `read_cb`. -/
def read_cb_addr : Nat := 2

/-- A callback that does nothing but leave a `Call.callback` entry in the log. -/
def log_cb : Callbacks :=
  fun fn fd events privdata w =>
    Except.ok { w with s := { w.s with log := w.s.log ++ [Call.callback fn fd events privdata] } }

/-- The callbacks of the echo server: `read_cb` at its address, and at any other address
a callback that only leaves a log entry. -/
def server_cb (search : Search) : Callbacks :=
  fun fn fd events privdata w =>
    if fn = read_cb_addr then read_cb search fd events privdata w
    else log_cb fn fd events privdata w

/-- A reactor with the event `e` in slot 1 and the kernel side `s`. -/
def serving (e : event_t) (s : Sys) : World :=
  { R := { create_reactor 1 with iter := 1, events := setSlot (create_reactor 1).events 1 e },
    s := s }

/-! ## The dispatch pass in the words of the spec -/

/-- From the words of the spec: the effective mask of a fired result is the fired mask,
plus readable and writable whenever error or hangup is set. -/
def spec_effective_mask (fired : Nat) : Nat :=
  if fired &&& EPOLLERR ≠ 0 ∨ fired &&& EPOLLHUP ≠ 0 then fired ||| EPOLLIN ||| EPOLLOUT
  else fired

/-- From the words of the spec: the best-effort drain of the output buffer of an event
without write callback. -/
def spec_default_flush (w : World) (et : Nat) (e : event_t) : Except Fault World := do
  let buf ← buffer_write_atmost (evbuf_out e)
  let r ← event_buffer_write e buf w.s
  pure (setEvent w et r.2.1 r.2.2)

/-- From the words of the spec: the read callback is invoked iff the effective mask `m`
contains readable and a read callback is set. -/
def spec_read_dispatch (cb : Callbacks) (m : Nat) (w : World) (et : Nat) :
    Except Fault World :=
  if m &&& EPOLLIN = 0 then pure w
  else do
    let e ← deref w et
    match e.read_fn with
    | none => pure w
    | some fn => cb fn e.fd EPOLLIN et w

/-- From the words of the spec: the write callback is invoked iff the effective mask `m`
contains writable and a write callback is set; with writable and no write callback the
output buffer is drained. -/
def spec_write_dispatch (cb : Callbacks) (m : Nat) (w : World) (et : Nat) :
    Except Fault World :=
  if m &&& EPOLLOUT = 0 then pure w
  else do
    let e ← deref w et
    match e.write_fn with
    | none => spec_default_flush w et e
    | some fn => cb fn e.fd EPOLLOUT et w

/-- From the words of the spec: for one result, read dispatch comes before write
dispatch. -/
def spec_dispatch (cb : Callbacks) (w : World) (ev : epoll_event) : Except Fault World := do
  let w1 ← spec_read_dispatch cb (spec_effective_mask ev.events) w ev.ptr
  spec_write_dispatch cb (spec_effective_mask ev.events) w1 ev.ptr

/-- From the words of the spec: the results of one wait are processed in the order
returned; nothing is dispatched when the wait gives no result or an error. -/
def spec_eventloop_once (cb : Callbacks) (w : World) (n : Int) (fire : List epoll_event) :
    Except Fault World :=
  if n ≤ 0 then pure w else (fire.take n.toNat).foldlM (spec_dispatch cb) w

/-- The callback invocations the spec expects for one fired result, in order, when the
callbacks leave the events as they are. -/
def expected_calls (w : World) (ev : epoll_event) : List Call :=
  (if spec_effective_mask ev.events &&& EPOLLIN ≠ 0 then
      match (w.R.events ev.ptr).read_fn with
      | some fn => [Call.callback fn (w.R.events ev.ptr).fd EPOLLIN ev.ptr]
      | none => []
    else []) ++
  (if spec_effective_mask ev.events &&& EPOLLOUT ≠ 0 then
      match (w.R.events ev.ptr).write_fn with
      | some fn => [Call.callback fn (w.R.events ev.ptr).fd EPOLLOUT ev.ptr]
      | none => []
    else [])

/-- The world with the entries `l` added to the call log. -/
def add_log (w : World) (l : List Call) : World :=
  { w with s := { w.s with log := w.s.log ++ l } }

/-- Callbacks for the stop scenario: the callback at address 8 calls `stop_eventloop`,
and every callback leaves a log entry. -/
def stopping_cb : Callbacks :=
  fun fn fd events privdata w =>
    if fn = 8 then log_cb fn fd events privdata { w with R := stop_eventloop w.R }
    else log_cb fn fd events privdata w

/-- A reactor with three registered events in slots 1, 2, 3 (descriptors 5, 6, 7) whose
read callbacks are at the addresses 8, 21 and 22. -/
def three_events : World :=
  { R := { create_reactor 1 with
            iter := 3,
            events := fun i =>
              if i = 1 then event_t.mk 5 1 (buffer_ptr.live []) (buffer_ptr.live []) (some 8) none none
              else if i = 2 then event_t.mk 6 1 (buffer_ptr.live []) (buffer_ptr.live []) (some 21) none none
              else if i = 3 then event_t.mk 7 1 (buffer_ptr.live []) (buffer_ptr.live []) (some 22) none none
              else event_t.zero },
    s := Sys.init }

/-! ## Attaching a hiredis connection (`adapter_async.h`) -/

/-- The hiredis return code `REDIS_OK`. -/
def REDIS_OK : Int := 0

/-- The hiredis return code `REDIS_ERR`. -/
def REDIS_ERR : Int := -1

/-- A function pointer stored in a hook slot of hiredis: one of the five functions of
the adapter, or some other function. -/
inductive hook_fn where
  | redisAddRead
  | redisDelRead
  | redisAddWrite
  | redisDelWrite
  | redisCleanup
  | other (addr : Nat)
  deriving DecidableEq, Repr

/-- The member `ev` of `redisAsyncContext`: the hook data (`none` is NULL, `some p` the
address `p`) and the five hook slots. -/
structure redis_ev where
  data : Option Nat
  addRead : Option hook_fn
  delRead : Option hook_fn
  addWrite : Option hook_fn
  delWrite : Option hook_fn
  cleanup : Option hook_fn
  deriving DecidableEq, Repr

/-- What `redisAttach` uses of `redisAsyncContext`: its own address, the descriptor
`c.fd` and the member `ev`. -/
structure redisAsyncContext where
  addr : Nat
  c_fd : Int
  ev : redis_ev
  deriving DecidableEq, Repr

/-- The function `redisAttach` for the reactor at address `r`. The argument `block` is
what `hi_malloc` gives: `none` when it fails, else the address of the block and what
the block holds before it is written. The result is the return code, the connection
and, when one was made, the bridge. -/
def redisAttach (r : Nat) (ac : redisAsyncContext) (block : Option (Nat × redis_event_t)) :
    Int × redisAsyncContext × Option redis_event_t :=
  if ac.ev.data ≠ none then (REDIS_ERR, ac, none)
  else
    match block with
    | none => (REDIS_ERR, ac, none)
    | some (p, re0) =>
      (REDIS_OK,
       { ac with ev := { data := some p, addRead := some hook_fn.redisAddRead,
                         delRead := some hook_fn.redisDelRead,
                         addWrite := some hook_fn.redisAddWrite,
                         delWrite := some hook_fn.redisDelWrite,
                         cleanup := some hook_fn.redisCleanup } },
       some (attached r ac.addr ac.c_fd re0.e))

/-- The bytes of `"ping\n"`. -/
def ping : List Byte := [112, 105, 110, 103, 10]

/-- A search that reports a found pattern by the number of bytes up to and including its
last byte, and gives 0 when there is none. -/
def search_through : Search :=
  fun b pat =>
    match buffer_search b pat with
    | Except.error f => Except.error f
    | Except.ok off => Except.ok (if off < 0 then 0 else off + (pat.length : Int))

/-! ## What a caller of `event_buffer_read` can see -/

/-- Whether a log entry is a `read` call. -/
def Call.is_read : Call → Bool
  | Call.read _ => true
  | _ => false

/-- The kernel side without the pending `read` results and without the `read` entries of
the log: the registrations, the bytes sent, the pending `write` results, and the log of
all other calls (error callbacks, `epoll_ctl`, `free_event`, `close`). -/
def Sys.seen (s : Sys) :
    (Int → Option Nat) × (Int → List Byte) × (Int → List WriteResult) × List Call :=
  (s.interest, s.sent, s.wr, s.log.filter (fun c => !c.is_read))

/-- What `event_buffer_read` leaves for its caller: the value returned, the event with
its buffers, and the kernel side as `Sys.seen` gives it. -/
def read_outcome (r : Int × event_t × Sys) :
    Int × event_t × ((Int → Option Nat) × (Int → List Byte) × (Int → List WriteResult) × List Call) :=
  (r.1, r.2.1, r.2.2.seen)

/-- The `read` results with every failure by `EINTR` taken out. -/
def without_eintr (l : List ReadResult) : List ReadResult :=
  l.filter (fun r => r != ReadResult.fail Errno.EINTR)

/-! ## File descriptor flags and file status flags (`fcntl`) -/

/-- The command `F_GETFD` of `<fcntl.h>`. -/
def F_GETFD : Nat := 1

/-- The command `F_SETFD` of `<fcntl.h>`. -/
def F_SETFD : Nat := 2

/-- The command `F_GETFL` of `<fcntl.h>`. -/
def F_GETFL : Nat := 3

/-- The command `F_SETFL` of `<fcntl.h>`. -/
def F_SETFL : Nat := 4

/-- The descriptor flag `FD_CLOEXEC` of `<fcntl.h>`. -/
def FD_CLOEXEC : Nat := 1

/-- The status flag `O_NONBLOCK` of `<fcntl.h>` (octal 04000). -/
def O_NONBLOCK : Nat := 2048

/-- The status flags `F_SETFL` can change on Linux: `O_APPEND`, `O_NONBLOCK`, `O_ASYNC`,
`O_DIRECT`, `O_NOATIME`. -/
def SETFL_MASK : Nat := 1024 ||| 2048 ||| 8192 ||| 16384 ||| 262144

/-- The two flag words the kernel keeps for an open descriptor: the file descriptor
flags (`F_GETFD`/`F_SETFD`, only `FD_CLOEXEC`) and the file status flags
(`F_GETFL`/`F_SETFL`, among them `O_NONBLOCK`, which decides whether `read` and `write`
fail with `EWOULDBLOCK` instead of blocking). -/
structure fd_flags where
  descriptor : Nat
  status : Nat
  deriving DecidableEq, Repr

/-- The flag words of the open descriptors; `none` for a descriptor that is not open. -/
abbrev FdTable := Int → Option fd_flags

/-- The system call `fcntl(fd, cmd, arg)` for the four commands above. -/
def fcntl (t : FdTable) (fd : Int) (cmd : Nat) (arg : Nat) : Int × FdTable :=
  match t fd with
  | none => (-1, t)
  | some f =>
    if cmd = F_GETFD then ((f.descriptor : Int), t)
    else if cmd = F_SETFD then
      (0, upd t fd (some { f with descriptor := arg &&& FD_CLOEXEC }))
    else if cmd = F_GETFL then ((f.status : Int), t)
    else if cmd = F_SETFL then
      (0, upd t fd (some { f with status :=
        (f.status &&& int_not SETFL_MASK) ||| (arg &&& SETFL_MASK) }))
    else (-1, t)

/-- The function `set_nonblock`. The `int` that `fcntl` returned is passed on as the
bits of `flag`; -1 has all bits set. -/
def set_nonblock (t : FdTable) (fd : Int) : Int × FdTable :=
  let r := fcntl t fd F_GETFD 0
  let flag : Nat := if r.1 < 0 then 2 ^ 32 - 1 else r.1.toNat
  fcntl r.2 fd F_SETFD (flag ||| O_NONBLOCK)

/-- A descriptor table with descriptor 5 open for reading and writing (`O_RDWR`), in
blocking mode, with no descriptor flag set. -/
def blocking_socket : FdTable := upd (fun _ => none) 5 (some (fd_flags.mk 0 2))

/-! # Theorems -/

/-! ## Facts about the slot scan -/

theorem MAX_CONN_eq : MAX_CONN = 65535 := by decide

theorem and_MAX_CONN (n : Nat) : n &&& MAX_CONN = n % 65536 := by
  have h : MAX_CONN = 2 ^ 16 - 1 := by decide
  rw [h, Nat.and_pow_two_sub_one_eq_mod]

theorem scan_stops (events : Nat → event_t) (iter : Nat) (h1 : iter &&& MAX_CONN < MAX_CONN)
    (h2 : (events (iter &&& MAX_CONN)).fd ≤ 0) : scan events iter = Except.ok iter := by
  rw [scan]
  simp [h1, not_lt.mpr h2]

theorem scan_ok_spec (events : Nat → event_t) (iter : Nat) :
    ∀ it, scan events iter = Except.ok it →
      iter ≤ it ∧ it &&& MAX_CONN < MAX_CONN ∧ (events (it &&& MAX_CONN)).fd ≤ 0 := by
  refine scan.induct events
    (fun iter => ∀ it, scan events iter = Except.ok it →
      iter ≤ it ∧ it &&& MAX_CONN < MAX_CONN ∧ (events (it &&& MAX_CONN)).fd ≤ 0) ?_ ?_ ?_ iter
  · intro x h1 h2 ih it h
    rw [scan] at h
    simp only [h1, h2, dite_true, if_true] at h
    have := ih it h
    omega
  · intro x h1 h2 it h
    rw [scan] at h
    simp only [h1, h2, dite_true, if_false] at h
    cases h
    exact ⟨le_refl _, h1, not_lt.mp h2⟩
  · intro x h1 it h
    rw [scan] at h
    simp only [h1, dite_false] at h
    cases h

theorem scan_used_run (events : Nat → event_t) (iter : Nat) :
    (∀ i, iter % 65536 ≤ i → i < MAX_CONN → 0 < (events i).fd) →
      scan events iter = Except.error (Fault.oobRead MAX_CONN) := by
  refine scan.induct events
    (fun iter => (∀ i, iter % 65536 ≤ i → i < MAX_CONN → 0 < (events i).fd) →
      scan events iter = Except.error (Fault.oobRead MAX_CONN)) ?_ ?_ ?_ iter
  · intro x h1 h2 ih hall
    rw [scan]
    simp only [h1, h2, dite_true, if_true]
    apply ih
    intro i hi hlt
    apply hall i _ hlt
    rw [and_MAX_CONN, MAX_CONN_eq] at h1
    omega
  · intro x h1 h2 hall
    exfalso
    apply h2
    apply hall _ _ h1
    rw [and_MAX_CONN]
  · intro x h1 _
    rw [scan]
    simp only [h1, dite_false]
    have h3 := and_MAX_CONN x
    have h4 := MAX_CONN_eq
    have h5 : x &&& MAX_CONN = MAX_CONN := by omega
    rw [h5]

theorem fresh_above_next (R : reactor_t) (fd : Int) (rd : Nat) (hinv : fresh_above R) :
    fresh_above (after_new_event R fd rd) := by
  intro i hi
  simp only [after_new_event, setSlot] at hi ⊢
  have : i ≠ R.iter + 1 := by omega
  simp only [this, if_false]
  exact hinv i (by omega)

theorem new_event_next (R : reactor_t) (fd : Int) (rd : Nat) (h1 : R.iter + 1 < MAX_CONN)
    (h2 : (R.events (R.iter + 1)).fd ≤ 0) :
    new_event R fd (some rd) none none =
      Except.ok (after_new_event R fd rd, R.iter + 1) := by
  have hm : (R.iter + 1) &&& MAX_CONN = R.iter + 1 := by
    rw [and_MAX_CONN]; rw [MAX_CONN_eq] at h1; omega
  have hs : scan R.events (R.iter + 1) = Except.ok (R.iter + 1) :=
    scan_stops _ _ (by rw [hm]; exact h1) (by rw [hm]; exact h2)
  simp [new_event, _get_event_t, hs, h1, buffer_new, after_new_event]

theorem new_event_end (R : reactor_t) (fd : Int) (rd : Nat) (h1 : R.iter + 1 = MAX_CONN) :
    new_event R fd (some rd) none none = Except.error (Fault.oobRead MAX_CONN) := by
  have hs : scan R.events (R.iter + 1) = Except.error (Fault.oobRead MAX_CONN) := by
    apply scan_used_run
    intro i hi hlt
    rw [MAX_CONN_eq] at h1 hlt
    omega
  simp [new_event, _get_event_t, hs]

theorem register_all_overflow (rd : Nat) (fds : List Int) :
    ∀ R : reactor_t, fresh_above R → R.iter < MAX_CONN → MAX_CONN ≤ R.iter + fds.length →
      register_all rd fds R = Except.error (Fault.oobRead MAX_CONN) := by
  induction fds with
  | nil => intro R _ h1 h2; simp at h2; omega
  | cons fd fds ih =>
    intro R hinv h1 h2
    by_cases h3 : R.iter + 1 = MAX_CONN
    · simp [register_all, new_event_end R fd rd h3]
    · have h4 : R.iter + 1 < MAX_CONN := by omega
      rw [register_all, new_event_next R fd rd h4 (hinv _ (Nat.lt_succ_self _))]
      simp only []
      rw [ih _ (fresh_above_next R fd rd hinv) h4
        (by simp only [List.length_cons, after_new_event] at h2 ⊢; omega)]

theorem register_all_ok (rd : Nat) (fds : List Int) :
    ∀ R : reactor_t, fresh_above R → R.iter + fds.length < MAX_CONN →
      ∃ R2, register_all rd fds R = Except.ok (R2, List.range' (R.iter + 1) fds.length) ∧
        R2.iter = R.iter + fds.length ∧ fresh_above R2 := by
  induction fds with
  | nil => intro R hinv _; exact ⟨R, by simp [register_all], by simp, hinv⟩
  | cons fd fds ih =>
    intro R hinv h2
    simp only [List.length_cons] at h2
    have h4 : R.iter + 1 < MAX_CONN := by omega
    rw [register_all, new_event_next R fd rd h4 (hinv _ (Nat.lt_succ_self _))]
    simp only []
    obtain ⟨R2, e1, e2, e3⟩ := ih (after_new_event R fd rd)
      (fresh_above_next R fd rd hinv) (by simp only [after_new_event]; omega)
    refine ⟨R2, ?_, ?_, e3⟩
    · rw [e1]; simp [List.range', after_new_event]
    · rw [e2]; simp only [List.length_cons, after_new_event]; omega

theorem del_event_fd (e : event_t) (s : Sys) : (del_event e s).1.fd = e.fd := rfl

theorem del_event_at_fd (w : World) (i j : Nat) :
    ((del_event_at w i).R.events j).fd = (w.R.events j).fd := by
  simp only [del_event_at, setEvent, setSlot]
  split
  · next h => rw [h]; rfl
  · rfl

theorem del_all_keeps (is : List Nat) :
    ∀ w : World, (del_all is w).R.iter = w.R.iter ∧
      ∀ j, ((del_all is w).R.events j).fd = (w.R.events j).fd := by
  induction is with
  | nil => intro w; exact ⟨rfl, fun _ => rfl⟩
  | cons i is ih =>
    intro w
    obtain ⟨h1, h2⟩ := ih (del_event_at w i)
    refine ⟨h1, fun j => ?_⟩
    show ((del_all is (del_event_at w i)).R.events j).fd = _
    rw [h2 j, del_event_at_fd]

theorem fresh_above_create (addr : Nat) : fresh_above (create_reactor addr) := by
  intro i _
  simp [create_reactor, event_t.zero]

theorem length_descriptors (n : Nat) : (descriptors n).length = n := by
  simp [descriptors]

theorem new_event_full (R : reactor_t) (fd : Int) (rd : Nat)
    (hall : ∀ i, i < MAX_CONN → 0 < (R.events i).fd) :
    new_event R fd (some rd) none none = Except.error (Fault.oobRead MAX_CONN) := by
  have hs : scan R.events (R.iter + 1) = Except.error (Fault.oobRead MAX_CONN) :=
    scan_used_run _ _ (fun i _ hi => hall i hi)
  simp [new_event, _get_event_t, hs]

/-- C1 (as stated, refuted): on a pool in which every slot holds a live event,
`new_event` does not return a failure to its caller: the scan of `_get_event_t` walks
to index `MAX_CONN`, one past the last allocated slot, and reads there. The same
happens on a fresh reactor at the registration number `MAX_CONN`. -/
theorem full_pool_scan_leaves_pool :
    (∀ i, i < MAX_CONN → 0 < (full_reactor.events i).fd) ∧
    new_event full_reactor 70000 (some 2) none none = Except.error (Fault.oobRead MAX_CONN) ∧
    register_all 2 (descriptors MAX_CONN) (create_reactor 1)
      = Except.error (Fault.oobRead MAX_CONN) := by
  have hfull : ∀ i, i < MAX_CONN → 0 < (full_reactor.events i).fd := by
    intro i _
    simp only [full_reactor]
    omega
  refine ⟨hfull, new_event_full _ _ _ hfull, ?_⟩
  apply register_all_overflow _ _ _ (fresh_above_create 1)
  · simp [create_reactor, MAX_CONN_eq]
  · rw [length_descriptors]; simp [create_reactor]

/-- C1 (amended): `new_event` has no resource-exhaustion result. Whenever it returns an
event, the slot is one of the `MAX_CONN` allocated ones and held no live event
(`fd <= 0`) before the call, so the pool was not full. -/
theorem new_event_slot_was_free (R : reactor_t) (fd : Int) (rd wt err : Option Nat)
    (R1 : reactor_t) (e : Nat) (h : new_event R fd rd wt err = Except.ok (R1, e)) :
    e < MAX_CONN ∧ (R.events e).fd ≤ 0 ∧ (R1.events e).fd = fd ∧
      ¬ (∀ i, i < MAX_CONN → 0 < (R.events i).fd) := by
  unfold new_event at h
  split at h
  · cases h
  · unfold _get_event_t at h
    cases hs : scan R.events (R.iter + 1) with
    | error f => rw [hs] at h; cases h
    | ok it =>
      rw [hs] at h
      simp only [] at h
      split at h
      · next hlt =>
        simp only [Except.ok.injEq, Prod.mk.injEq] at h
        obtain ⟨hR, he⟩ := h
        subst he
        subst hR
        obtain ⟨_, h2, h3⟩ := scan_ok_spec _ _ _ hs
        have hm : it &&& MAX_CONN = it := by
          rw [and_MAX_CONN]; rw [MAX_CONN_eq] at hlt; omega
        rw [hm] at h3
        refine ⟨hlt, h3, by simp [setSlot], fun hall => ?_⟩
        have := hall it hlt
        omega
      · cases h

/-- Witness of `new_event_slot_was_free` on a fresh reactor. -/
theorem new_event_slot_was_free_witness :
    1 < MAX_CONN ∧ ((create_reactor 1).events 1).fd ≤ 0 ∧
      ((after_new_event (create_reactor 1) 5 2).events 1).fd = 5 ∧
      ¬ (∀ i, i < MAX_CONN → 0 < ((create_reactor 1).events i).fd) :=
  new_event_slot_was_free (create_reactor 1) 5 (some 2) none none
    (after_new_event (create_reactor 1) 5 2) 1
    (new_event_next (create_reactor 1) 5 2 (by decide) (by decide))

/-- C2 (evaluation at the failing input): with the cursor at 65534 on a fresh pool,
`_get_event_t` reads the slot of index 65535, one past the last allocated entry; with
the cursor at 65535 it returns the pointer `&r->events[65536]`. -/
theorem get_event_t_index_out_of_range :
    _get_event_t { create_reactor 1 with iter := 65534 } = Except.error (Fault.oobRead 65535) ∧
    (∃ R1, _get_event_t { create_reactor 1 with iter := 65535 } = Except.ok (R1, 65536)) ∧
    ¬ 65535 < MAX_CONN := by
  refine ⟨?_, ?_, by decide⟩
  · have hs : scan (create_reactor 1).events (65534 + 1) = Except.error (Fault.oobRead 65535) := by
      have h := scan_used_run (create_reactor 1).events (65534 + 1) (by
        intro i h1 h2
        rw [MAX_CONN_eq] at h2
        omega)
      rw [MAX_CONN_eq] at h
      exact h
    simp only [_get_event_t, hs]
  · have hs : scan (create_reactor 1).events 65536 = Except.ok 65536 :=
      scan_stops _ _ (by rw [and_MAX_CONN, MAX_CONN_eq]; norm_num)
        (by simp [create_reactor, event_t.zero])
    exact ⟨{ create_reactor 1 with iter := 65536 }, by simp [_get_event_t, hs]⟩

/-- C3 (evaluation at the failing input): after `new_event` for descriptor 5 and
`del_event` on the slot obtained, the `fd` field of the slot is still 5, not the
sentinel 0, and a scan that comes by skips the slot. -/
theorem del_event_keeps_descriptor :
    new_event (create_reactor 1) 5 (some 2) none none
      = Except.ok (after_new_event (create_reactor 1) 5 2, 1) ∧
    ((del_event_at { R := after_new_event (create_reactor 1) 5 2, s := Sys.init } 1).R.events 1).fd
      = 5 ∧
    scan (del_event_at { R := after_new_event (create_reactor 1) 5 2, s := Sys.init } 1).R.events 1
      = Except.ok 2 := by
  refine ⟨new_event_next (create_reactor 1) 5 2 (by decide) (by decide), ?_, ?_⟩
  · rw [del_event_at_fd]; simp [after_new_event, setSlot, create_reactor]
  · rw [scan]
    have h1 : (1 : Nat) &&& MAX_CONN = 1 := by decide
    have h2 : (1 : Nat) < MAX_CONN := by decide
    simp only [h1, h2, dite_true, del_event_at_fd]
    have h3 : ((after_new_event (create_reactor 1) 5 2).events 1).fd = 5 := by
      simp [after_new_event, setSlot, create_reactor]
    simp only [h3]
    rw [scan_stops]
    · rfl
    · decide
    · have h4 : (1 + 1 : Nat) &&& MAX_CONN = 2 := by decide
      rw [h4, del_event_at_fd]
      simp [after_new_event, setSlot, create_reactor, event_t.zero]

theorem slot_reuse_overflow (fds : List Int) (order : List Nat → List Nat)
    (h1 : fds.length < MAX_CONN) (h2 : MAX_CONN ≤ fds.length + fds.length) :
    slot_reuse fds order = Except.error (Fault.oobRead MAX_CONN) := by
  obtain ⟨R2, e1, e2, e3⟩ := register_all_ok 2 fds (create_reactor 1)
    (fresh_above_create 1) (by simpa [create_reactor] using h1)
  have e4 : R2.iter = fds.length := by rw [e2]; simp [create_reactor]
  unfold slot_reuse
  rw [e1]
  simp only []
  generalize order (List.range' ((create_reactor 1).iter + 1) fds.length) = is
  obtain ⟨k1, k2⟩ := del_all_keeps is { R := R2, s := Sys.init }
  apply register_all_overflow
  · intro i hi
    rw [k2]
    apply e3
    rw [k1] at hi
    exact hi
  · rw [k1]; show R2.iter < MAX_CONN; rw [e4]; exact h1
  · rw [k1]; show MAX_CONN ≤ R2.iter + fds.length; rw [e4]; exact h2

/-- C4 (evaluation at the failing input): with 32768 descriptors, whatever the order of
the `del_event` calls, the second round of `new_event` calls does not succeed: it runs
into the read of slot index `MAX_CONN`, outside the pool. -/
theorem slot_reuse_runs_off_pool (order : List Nat → List Nat) :
    slot_reuse (descriptors 32768) order = Except.error (Fault.oobRead MAX_CONN) :=
  slot_reuse_overflow (descriptors 32768) order
    (by rw [length_descriptors, MAX_CONN_eq]; norm_num)
    (by rw [length_descriptors, MAX_CONN_eq]; norm_num)

/-! ## The adapter -/

/-- C5 (evaluation at the failing input): on a freshly attached bridge, add-read followed
by add-write leaves the mask at `EPOLLIN | EPOLLOUT` while the interest registered for
the descriptor is `EPOLLOUT` alone; a remove-read after that leaves the mask at
`EPOLLOUT` while the registered interest is empty. After `redisCleanup` nothing is
registered. -/
theorem adapter_mask_differs_from_registration :
    (run_hooks [Hook.addRead, Hook.addWrite] (attached 1 9 5 event_t.zero) Sys.init).1.mask
      = EPOLLIN ||| EPOLLOUT ∧
    (run_hooks [Hook.addRead, Hook.addWrite] (attached 1 9 5 event_t.zero) Sys.init).2.interest 5
      = some EPOLLOUT ∧
    (run_hooks [Hook.addRead, Hook.addWrite, Hook.delRead]
        (attached 1 9 5 event_t.zero) Sys.init).1.mask = EPOLLOUT ∧
    (run_hooks [Hook.addRead, Hook.addWrite, Hook.delRead]
        (attached 1 9 5 event_t.zero) Sys.init).2.interest 5 = some 0 ∧
    (redisCleanup
        (run_hooks [Hook.addRead, Hook.addWrite] (attached 1 9 5 event_t.zero) Sys.init).1
        (run_hooks [Hook.addRead, Hook.addWrite] (attached 1 9 5 event_t.zero) Sys.init).2
      ).2.interest 5 = none := by
  decide

/-! ## Buffered writes -/

theorem write_loop_eintr (fd : Int) (buf : List Byte) (j : Nat) (tail : List WriteResult) :
    ∀ (e : event_t) (s : Sys),
      ∃ s1, _write_socket_loop fd buf
          (List.replicate j (WriteResult.fail Errno.EINTR) ++ tail) e s
        = _write_socket_loop fd buf tail e s1 ∧
        s1.interest = s.interest ∧ s1.sent = s.sent ∧ s1.wr = s.wr ∧ s1.rd = s.rd := by
  induction j with
  | zero => intro e s; exact ⟨s, rfl, rfl, rfl, rfl, rfl⟩
  | succ j ih =>
    intro e s
    obtain ⟨s1, h1, h2, h3, h4, h5⟩ :=
      ih e { s with log := s.log ++ [Call.write fd buf] }
    exact ⟨s1, by simpa [List.replicate_succ, _write_socket_loop] using h1, h2, h3, h4, h5⟩

theorem upd_same {α : Type} (f : Int → α) (fd : Int) (v : α) : upd f fd v fd = v := by
  simp [upd]

theorem write_socket_accept (e : event_t) (data : List Byte) (s : Sys) (j k : Nat)
    (rest : List WriteResult)
    (hscript : s.wr e.fd
      = List.replicate j (WriteResult.fail Errno.EINTR) ++ WriteResult.accept k :: rest) :
    (_write_socket e data s).1 = ((min k data.length : Nat) : Int) ∧
    (_write_socket e data s).2.1 = e ∧
    (_write_socket e data s).2.2.sent e.fd = s.sent e.fd ++ data.take (min k data.length) ∧
    (_write_socket e data s).2.2.interest = s.interest ∧
    (_write_socket e data s).2.2.wr e.fd = rest := by
  obtain ⟨s0, h0, hi0, hs0, _, _⟩ :=
    write_loop_eintr e.fd data j (WriteResult.accept k :: rest) e s
  simp [_write_socket, hscript, h0, _write_socket_loop, upd_same, hi0, hs0]

theorem write_socket_wouldblock (e : event_t) (data : List Byte) (s : Sys) (j : Nat)
    (rest : List WriteResult)
    (hscript : s.wr e.fd = List.replicate j (WriteResult.fail Errno.EINTR)
      ++ WriteResult.fail Errno.EWOULDBLOCK :: rest) :
    (_write_socket e data s).1 = 0 ∧
    (_write_socket e data s).2.1 = e ∧
    (_write_socket e data s).2.2.sent e.fd = s.sent e.fd ∧
    (_write_socket e data s).2.2.interest = s.interest ∧
    (_write_socket e data s).2.2.wr e.fd = rest := by
  obtain ⟨s0, h0, hi0, hs0, _, _⟩ :=
    write_loop_eintr e.fd data j (WriteResult.fail Errno.EWOULDBLOCK :: rest) e s
  simp [_write_socket, hscript, h0, _write_socket_loop, upd_same, hi0, hs0]

theorem ebw_buffered (e : event_t) (data : List Byte) (s : Sys) (n : Nat)
    (hout : e.out = buffer_ptr.live [])
    (h1 : (_write_socket e data s).1 = (n : Int))
    (h2 : (_write_socket e data s).2.1 = e)
    (hn : n < data.length) :
    event_buffer_write e data s
      = Except.ok (0, { e with out := buffer_ptr.live (data.drop n) },
          (enable_event (_write_socket e data s).2.2
            { e with out := buffer_ptr.live (data.drop n) } 1 1).2) := by
  have hcond : ((n : Int) = 0 ∨ (n : Int) < (data.length : Int)) :=
    Or.inr (by exact_mod_cast hn)
  have hneg : ¬ ((n : Int) < 0) := by omega
  simp only [event_buffer_write, h1, h2, if_true, hcond, evbuf_out, hout, buffer_add,
    buffer_len, List.length_nil, hneg, if_false, Int.toNat_ofNat, List.nil_append]

theorem ebw_complete (e : event_t) (data : List Byte) (s : Sys)
    (hout : e.out = buffer_ptr.live [])
    (h1 : (_write_socket e data s).1 = (data.length : Int))
    (h2 : (_write_socket e data s).2.1 = e)
    (hn : 0 < data.length) :
    event_buffer_write e data s = Except.ok (1, e, (_write_socket e data s).2.2) := by
  have hc1 : ¬ ((data.length : Int) = 0 ∨ (data.length : Int) < (data.length : Int)) := by
    omega
  have hc2 : ¬ ((data.length : Int) < 0) := by omega
  simp only [event_buffer_write, evbuf_out, hout, buffer_len, List.length_nil, h1, h2, if_true,
    hc1, hc2, if_false]

theorem enable_event_registered (s : Sys) (e : event_t) (v : Nat)
    (h : s.interest e.fd = some v) :
    (enable_event s e 1 1).2.interest = upd s.interest e.fd (some (EPOLLIN ||| EPOLLOUT)) ∧
    (enable_event s e 1 1).2.sent = s.sent ∧ (enable_event s e 1 1).2.wr = s.wr := by
  simp [enable_event, epoll_ctl, h]

theorem ebw_on_empty_buffer (e : event_t) (data : List Byte) (s : Sys)
    (j k : Nat) (o : WriteResult) (rest : List WriteResult)
    (hout : e.out = buffer_ptr.live [])
    (hreg : s.interest e.fd ≠ none)
    (hsz : 0 < data.length)
    (ho : o = WriteResult.accept k ∨ (o = WriteResult.fail Errno.EWOULDBLOCK ∧ k = 0))
    (hscript : s.wr e.fd = List.replicate j (WriteResult.fail Errno.EINTR) ++ o :: rest) :
    ∃ s1, event_buffer_write e data s
        = Except.ok ((if k < data.length then 0 else 1),
            { e with out := buffer_ptr.live (data.drop k) }, s1) ∧
      s1.sent e.fd = s.sent e.fd ++ data.take k ∧
      s1.interest = (if k < data.length
        then upd s.interest e.fd (some (EPOLLIN ||| EPOLLOUT)) else s.interest) ∧
      s1.wr e.fd = rest := by
  obtain ⟨v, hv⟩ : ∃ v, s.interest e.fd = some v := Option.ne_none_iff_exists'.mp hreg
  rcases ho with ho | ⟨ho, hk0⟩
  · subst ho
    obtain ⟨w1, w2, w3, w4, w5⟩ := write_socket_accept e data s j k rest hscript
    by_cases hk : k < data.length
    · rw [Nat.min_eq_left (le_of_lt hk)] at w1 w3
      have hv2 : (_write_socket e data s).2.2.interest
          ({ e with out := buffer_ptr.live (data.drop k) } : event_t).fd = some v := by
        rw [w4]; exact hv
      obtain ⟨e1, e2, e3⟩ := enable_event_registered _ _ v hv2
      refine ⟨(enable_event (_write_socket e data s).2.2
            { e with out := buffer_ptr.live (data.drop k) } 1 1).2, ?_, ?_, ?_, ?_⟩
      · rw [ebw_buffered e data s k hout w1 w2 hk]; simp only [hk, if_true]
      · rw [e2]; exact w3
      · rw [e1, w4]; simp only [hk, if_true]
      · rw [e3]; exact w5
    · have hge : data.length ≤ k := not_lt.mp hk
      rw [Nat.min_eq_right hge] at w1 w3
      refine ⟨(_write_socket e data s).2.2, ?_, ?_, ?_, ?_⟩
      · rw [ebw_complete e data s hout w1 w2 hsz]
        simp only [hk, if_false, List.drop_of_length_le hge, ← hout]
      · rw [w3, List.take_of_length_le hge, List.take_of_length_le (le_refl _)]
      · rw [w4]; simp only [hk, if_false]
      · exact w5
  · subst ho
    subst hk0
    obtain ⟨w1, w2, w3, w4, w5⟩ := write_socket_wouldblock e data s j rest hscript
    have hv2 : (_write_socket e data s).2.2.interest
        ({ e with out := buffer_ptr.live (data.drop 0) } : event_t).fd = some v := by
      rw [w4]; exact hv
    obtain ⟨e1, e2, e3⟩ := enable_event_registered _ _ v hv2
    refine ⟨(enable_event (_write_socket e data s).2.2
          { e with out := buffer_ptr.live (data.drop 0) } 1 1).2, ?_, ?_, ?_, ?_⟩
    · rw [ebw_buffered e data s 0 hout (by rw [w1]; rfl) w2 hsz]; simp only [hsz, if_true]
    · rw [e2, w3]; simp
    · rw [e1, w4]; simp only [hsz, if_true]
    · rw [e3]; exact w5

theorem enable_event_unregistered (s : Sys) (e : event_t)
    (h : s.interest e.fd = none) :
    (enable_event s e 1 1).2.interest = s.interest ∧
    (enable_event s e 1 1).2.sent = s.sent ∧ (enable_event s e 1 1).2.wr = s.wr := by
  simp [enable_event, epoll_ctl, h]

theorem ebw_on_empty_buffer_unregistered (e : event_t) (data : List Byte) (s : Sys)
    (j k : Nat) (o : WriteResult) (rest : List WriteResult)
    (hout : e.out = buffer_ptr.live [])
    (hreg : s.interest e.fd = none)
    (hsz : 0 < data.length)
    (ho : o = WriteResult.accept k ∨ (o = WriteResult.fail Errno.EWOULDBLOCK ∧ k = 0))
    (hscript : s.wr e.fd = List.replicate j (WriteResult.fail Errno.EINTR) ++ o :: rest) :
    ∃ s1, event_buffer_write e data s
        = Except.ok ((if k < data.length then 0 else 1),
            { e with out := buffer_ptr.live (data.drop k) }, s1) ∧
      s1.sent e.fd = s.sent e.fd ++ data.take k ∧
      s1.interest = s.interest ∧
      s1.wr e.fd = rest := by
  rcases ho with ho | ⟨ho, hk0⟩
  · subst ho
    obtain ⟨w1, w2, w3, w4, w5⟩ := write_socket_accept e data s j k rest hscript
    by_cases hk : k < data.length
    · rw [Nat.min_eq_left (le_of_lt hk)] at w1 w3
      have hv2 : (_write_socket e data s).2.2.interest
          ({ e with out := buffer_ptr.live (data.drop k) } : event_t).fd = none := by
        rw [w4]; exact hreg
      obtain ⟨e1, e2, e3⟩ := enable_event_unregistered _ _ hv2
      refine ⟨(enable_event (_write_socket e data s).2.2
            { e with out := buffer_ptr.live (data.drop k) } 1 1).2, ?_, ?_, ?_, ?_⟩
      · rw [ebw_buffered e data s k hout w1 w2 hk]; simp only [hk, if_true]
      · rw [e2]; exact w3
      · rw [e1, w4]
      · rw [e3]; exact w5
    · have hge : data.length ≤ k := not_lt.mp hk
      rw [Nat.min_eq_right hge] at w1 w3
      refine ⟨(_write_socket e data s).2.2, ?_, ?_, ?_, ?_⟩
      · rw [ebw_complete e data s hout w1 w2 hsz]
        simp only [hk, if_false, List.drop_of_length_le hge, ← hout]
      · rw [w3, List.take_of_length_le hge, List.take_of_length_le (le_refl _)]
      · exact w4
      · exact w5
  · subst ho
    subst hk0
    obtain ⟨w1, w2, w3, w4, w5⟩ := write_socket_wouldblock e data s j rest hscript
    have hv2 : (_write_socket e data s).2.2.interest
        ({ e with out := buffer_ptr.live (data.drop 0) } : event_t).fd = none := by
      rw [w4]; exact hreg
    obtain ⟨e1, e2, e3⟩ := enable_event_unregistered _ _ hv2
    refine ⟨(enable_event (_write_socket e data s).2.2
          { e with out := buffer_ptr.live (data.drop 0) } 1 1).2, ?_, ?_, ?_, ?_⟩
    · rw [ebw_buffered e data s 0 hout (by rw [w1]; rfl) w2 hsz]; simp only [hsz, if_true]
    · rw [e2, w3]; simp
    · rw [e1, w4]
    · rw [e3]; exact w5

/-- C7 (as stated, refuted): the event `sample_event`, with an empty output buffer, on a
descriptor that is not registered with the epoll instance (an event `new_event` made
and `add_event` was not called for); three bytes are offered and the kernel takes two.
The result is 0 and the output buffer holds the third byte, but no writable interest
is registered: the `EPOLL_CTL_MOD` of `enable_event` fails on the unregistered
descriptor and `event_buffer_write` does not look at its result. -/
theorem event_buffer_write_on_unregistered_descriptor :
    (event_buffer_write sample_event [10, 20, 30]
        { sample_sys [] [WriteResult.accept 2] with interest := fun _ => none }).map
          (fun r => (r.1, r.2.1.out, r.2.2.interest 5, r.2.2.sent 5, r.2.2.log))
      = Except.ok (0, buffer_ptr.live [30], none, [10, 20],
          [Call.write 5 [10, 20, 30], Call.epoll_ctl CtlOp.MOD 5 (EPOLLIN ||| EPOLLOUT)]) := by
  rfl

/-- C7 (amended): `event_buffer_write` of `data` (at least one byte) on an event with an
empty output buffer, where after `j` interrupted attempts the kernel takes `k` bytes
(`k = 0` when the attempt would block). If `k` is less than the size, the result is
0 and the output buffer holds the bytes from `k` on; the descriptor is then
registered for `EPOLLIN | EPOLLOUT` if it was registered before the call, and stays
unregistered if it was not. Otherwise the result is 1, the output buffer stays empty
and the registration is unchanged. In both cases the descriptor received exactly the
first `k` bytes. -/
theorem event_buffer_write_on_empty_buffer (e : event_t) (data : List Byte) (s : Sys)
    (j k : Nat) (o : WriteResult) (rest : List WriteResult)
    (hout : e.out = buffer_ptr.live [])
    (hsz : 0 < data.length)
    (ho : o = WriteResult.accept k ∨ (o = WriteResult.fail Errno.EWOULDBLOCK ∧ k = 0))
    (hscript : s.wr e.fd = List.replicate j (WriteResult.fail Errno.EINTR) ++ o :: rest) :
    ∃ s1, event_buffer_write e data s
        = Except.ok ((if k < data.length then 0 else 1),
            { e with out := buffer_ptr.live (data.drop k) }, s1) ∧
      s1.sent e.fd = s.sent e.fd ++ data.take k ∧
      s1.interest = (if k < data.length ∧ s.interest e.fd ≠ none
        then upd s.interest e.fd (some (EPOLLIN ||| EPOLLOUT)) else s.interest) ∧
      s1.wr e.fd = rest := by
  by_cases hreg : s.interest e.fd = none
  · obtain ⟨s1, h1, h2, h3, h4⟩ :=
      ebw_on_empty_buffer_unregistered e data s j k o rest hout hreg hsz ho hscript
    refine ⟨s1, h1, h2, ?_, h4⟩
    rw [h3, if_neg (fun h => h.2 hreg)]
  · obtain ⟨s1, h1, h2, h3, h4⟩ :=
      ebw_on_empty_buffer e data s j k o rest hout hreg hsz ho hscript
    refine ⟨s1, h1, h2, ?_, h4⟩
    rw [h3]
    by_cases hk : k < data.length
    · rw [if_pos hk, if_pos ⟨hk, hreg⟩]
    · rw [if_neg hk, if_neg (fun h => hk h.1)]

/-- Witness of `event_buffer_write_on_empty_buffer`: three bytes offered on a registered
descriptor, one interrupted attempt, then the kernel takes two of them. -/
theorem event_buffer_write_on_empty_buffer_witness :
    ∃ s1, event_buffer_write sample_event [10, 20, 30]
          (sample_sys [] [WriteResult.fail Errno.EINTR, WriteResult.accept 2])
        = Except.ok ((if 2 < [10, 20, 30].length then 0 else 1),
            { sample_event with out := buffer_ptr.live (List.drop 2 [10, 20, 30]) }, s1) ∧
      s1.sent sample_event.fd
        = (sample_sys [] [WriteResult.fail Errno.EINTR, WriteResult.accept 2]).sent
            sample_event.fd ++ List.take 2 [10, 20, 30] ∧
      s1.interest = (if 2 < [10, 20, 30].length ∧
          (sample_sys [] [WriteResult.fail Errno.EINTR, WriteResult.accept 2]).interest
            sample_event.fd ≠ none
        then upd (sample_sys [] [WriteResult.fail Errno.EINTR, WriteResult.accept 2]).interest
          sample_event.fd (some (EPOLLIN ||| EPOLLOUT))
        else (sample_sys [] [WriteResult.fail Errno.EINTR, WriteResult.accept 2]).interest) ∧
      s1.wr sample_event.fd = [] :=
  event_buffer_write_on_empty_buffer sample_event [10, 20, 30]
    (sample_sys [] [WriteResult.fail Errno.EINTR, WriteResult.accept 2]) 1 2
    (WriteResult.accept 2) [] rfl (by decide) (Or.inl rfl) rfl

theorem ebw_appends (e : event_t) (data : List Byte) (s : Sys)
    (old : List Byte) (hold : old ≠ []) (hout : e.out = buffer_ptr.live old) :
    event_buffer_write e data s
      = Except.ok (1, { e with out := buffer_ptr.live (old ++ data) }, s) := by
  have hlen : old.length ≠ 0 := fun h => hold (List.length_eq_zero.mp h)
  simp only [event_buffer_write, evbuf_out, hout, buffer_len, hlen, if_false, buffer_add]

/-- C8: `event_buffer_write` on an event whose output buffer holds the unflushed bytes
`old`: the kernel side is left exactly as it was (no `write` call is made, nothing
reaches the descriptor) and the output buffer becomes `old ++ data`. -/
theorem event_buffer_write_appends (e : event_t) (data : List Byte) (s : Sys)
    (old : List Byte) (hold : old ≠ []) (hout : e.out = buffer_ptr.live old) :
    event_buffer_write e data s
      = Except.ok (1, { e with out := buffer_ptr.live (old ++ data) }, s) :=
  ebw_appends e data s old hold hout

/-- Witness of `event_buffer_write_appends`. -/
theorem event_buffer_write_appends_witness :
    event_buffer_write { sample_event with out := buffer_ptr.live [1, 2] } [3]
        (sample_sys [] [WriteResult.accept 9])
      = Except.ok (1, { { sample_event with out := buffer_ptr.live [1, 2] } with
                          out := buffer_ptr.live ([1, 2] ++ [3]) },
          sample_sys [] [WriteResult.accept 9]) :=
  event_buffer_write_appends { sample_event with out := buffer_ptr.live [1, 2] } [3]
    (sample_sys [] [WriteResult.accept 9]) [1, 2] (by decide) rfl

/-- C9 (evaluation at the failing input): three bytes offered on an event with an empty
output buffer, the `write` fails with errno 104. `_write_socket` returns -1 after the
teardown (error callback once, `del_event`, `close`), which releases the output
buffer; `event_buffer_write` then takes the branch `n == 0 || n < sz` (the branch
`n < 0` behind it is never reached) and calls `buffer_add` on the released buffer. -/
theorem event_buffer_write_continues_after_teardown :
    (_write_socket sample_event [1, 2, 3]
        (sample_sys [] [WriteResult.fail (Errno.hard 104)])).1 = -1 ∧
    (_write_socket sample_event [1, 2, 3]
        (sample_sys [] [WriteResult.fail (Errno.hard 104)])).2.1.out = buffer_ptr.released ∧
    (_write_socket sample_event [1, 2, 3]
        (sample_sys [] [WriteResult.fail (Errno.hard 104)])).2.2.log
      = [Call.write 5 [1, 2, 3], Call.error_fn 7 5, Call.epoll_ctl CtlOp.DEL 5 0,
         Call.free_event 5, Call.close 5] ∧
    event_buffer_write sample_event [1, 2, 3]
        (sample_sys [] [WriteResult.fail (Errno.hard 104)])
      = Except.error Fault.useAfterFree := by
  refine ⟨by decide, by decide, by decide, rfl⟩

/-! ## The default flush of the loop -/

theorem ebw_at_appends (w : World) (i : Nat) (data old : List Byte) (hold : old ≠ [])
    (hout : (w.R.events i).out = buffer_ptr.live old) :
    event_buffer_write_at w i data
      = Except.ok (1, setEvent w i (with_out (w.R.events i) (old ++ data)) w.s) := by
  simp only [event_buffer_write_at, ebw_appends (w.R.events i) data w.s old hold hout, with_out]

theorem setEvent_slot (w : World) (i : Nat) (e : event_t) (s : Sys) :
    (setEvent w i e s).R.events i = e := by
  simp [setEvent, setSlot]

theorem setEvent_sys (w : World) (i : Nat) (e : event_t) (s : Sys) :
    (setEvent w i e s).s = s := rfl

theorem dispatch_backlog (cb : Callbacks) (w : World) (bs : List Byte)
    (hw : (w.R.events 1).write_fn = none) (hout : (w.R.events 1).out = buffer_ptr.live bs)
    (hne : bs ≠ []) :
    dispatch cb w (epoll_event.mk EPOLLOUT 1)
      = Except.ok (setEvent w 1 (with_out (w.R.events 1) (bs ++ bs)) w.s) := by
  have h1 : EPOLLOUT &&& EPOLLERR = 0 := by decide
  have h2 : EPOLLOUT &&& EPOLLHUP = 0 := by decide
  have h3 : EPOLLOUT &&& EPOLLIN = 0 := by decide
  have h4 : EPOLLOUT &&& EPOLLOUT ≠ 0 := by decide
  have h5 : 1 < MAX_CONN := by decide
  simp only [dispatch, deref, h1, h2, h3, h4, h5, ne_eq, not_true_eq_false, not_false_eq_true,
    if_true, if_false, hw, evbuf_out, hout, buffer_write_atmost,
    ebw_appends (w.R.events 1) bs w.s bs hne hout, with_out]

theorem rounds_backlog (cb : Callbacks) (pre : List Byte) (rounds : Nat) :
    ∀ (w : World) (bs : List Byte), (w.R.events 1).write_fn = none →
      (w.R.events 1).out = buffer_ptr.live (pre ++ bs) → pre ≠ [] →
      ∃ w1 bs1, eventloop_rounds cb (List.replicate rounds [epoll_event.mk EPOLLOUT 1]) w
          = Except.ok w1 ∧ w1.s = w.s ∧
        (w1.R.events 1).out = buffer_ptr.live (pre ++ bs1) := by
  induction rounds with
  | zero => intro w bs _ hout _; exact ⟨w, bs, rfl, rfl, hout⟩
  | succ n ih =>
    intro w bs hw hout hne
    have hne2 : pre ++ bs ≠ [] := by simp [hne]
    have hd := dispatch_backlog cb w (pre ++ bs) hw hout hne2
    obtain ⟨w1, bs1, e1, e2, e3⟩ := ih
      (setEvent w 1 (with_out (w.R.events 1) (pre ++ bs ++ (pre ++ bs))) w.s)
      (bs ++ (pre ++ bs))
      (by rw [setEvent_slot]; exact hw)
      (by rw [setEvent_slot, List.append_assoc]; rfl) hne
    refine ⟨w1, bs1, ?_, e2, e3⟩
    simp only [List.replicate_succ, eventloop_rounds, eventloop_once, List.length_singleton,
      Nat.cast_one, Int.toNat_one, List.take_succ_cons, List.take_zero, dispatch_all, hd]
    exact e1

theorem connected_slot (script : List WriteResult) :
    (connected script).R.events 1
      = event_t.mk 5 1 (buffer_ptr.live []) (buffer_ptr.live []) (some 2) none none := rfl

theorem connected_interest (script : List WriteResult) :
    (connected script).s.interest 5 = some EPOLLIN := rfl

theorem connected_wr (script : List WriteResult) : (connected script).s.wr 5 = script := rfl

theorem connected_sent (script : List WriteResult) : (connected script).s.sent 5 = [] := rfl

/-- C6 (evaluation at the failing input): payload `[10, 20, 30]` of which the kernel takes
one byte, then payload `[40]`, then any number of writable passes of `eventloop_once`
on the event without write callback, whatever the kernel would take (`rest`). No
further `write` call is made: the descriptor has received `[10]` only, the `write`
results `rest` are all unused, and the output buffer still starts with `[20, 30, 40]`
(each pass appends the buffer's content to itself). -/
theorem backlog_never_flushed (cb : Callbacks) (rest : List WriteResult) (rounds : Nat) :
    ∃ w bs, backlog_scenario cb [10, 20, 30] [40] (WriteResult.accept 1 :: rest) rounds
        = Except.ok w ∧
      w.s.sent 5 = [10] ∧ w.s.wr 5 = rest ∧
      (w.R.events 1).out = buffer_ptr.live ([20, 30, 40] ++ bs) := by
  obtain ⟨s1, h1, h2, _, h4⟩ := ebw_on_empty_buffer
    ((connected (WriteResult.accept 1 :: rest)).R.events 1) [10, 20, 30]
    (connected (WriteResult.accept 1 :: rest)).s 0 1 (WriteResult.accept 1) rest
    rfl (by rw [connected_slot, connected_interest]; simp) (by decide) (Or.inl rfl)
    (by rw [connected_slot, connected_wr]; rfl)
  rw [connected_slot] at h1 h2 h4
  rw [connected_sent] at h2
  have hA : event_buffer_write_at (connected (WriteResult.accept 1 :: rest)) 1 [10, 20, 30]
      = Except.ok (0, setEvent (connected (WriteResult.accept 1 :: rest)) 1
          (with_out ((connected (WriteResult.accept 1 :: rest)).R.events 1) [20, 30]) s1) := by
    simp only [event_buffer_write_at, connected_slot, h1]
    rfl
  have hB := ebw_at_appends (setEvent (connected (WriteResult.accept 1 :: rest)) 1
      (with_out ((connected (WriteResult.accept 1 :: rest)).R.events 1) [20, 30]) s1)
      1 [40] [20, 30] (by decide) (by rw [setEvent_slot]; rfl)
  obtain ⟨w1, bs1, e1, e2, e3⟩ := rounds_backlog cb [20, 30, 40] rounds
    (setEvent (setEvent (connected (WriteResult.accept 1 :: rest)) 1
        (with_out ((connected (WriteResult.accept 1 :: rest)).R.events 1) [20, 30]) s1) 1
      (with_out ((setEvent (connected (WriteResult.accept 1 :: rest)) 1
        (with_out ((connected (WriteResult.accept 1 :: rest)).R.events 1) [20, 30]) s1).R.events 1)
        ([20, 30] ++ [40]))
      (setEvent (connected (WriteResult.accept 1 :: rest)) 1
        (with_out ((connected (WriteResult.accept 1 :: rest)).R.events 1) [20, 30]) s1).s) []
    (by rw [setEvent_slot, setEvent_slot]; rfl) (by rw [setEvent_slot]; rfl) (by decide)
  refine ⟨w1, bs1, ?_, ?_, ?_, e3⟩
  · simp only [backlog_scenario, hA, hB]
    exact e1
  · rw [e2, setEvent_sys, setEvent_sys, h2]; rfl
  · rw [e2, setEvent_sys, setEvent_sys, h4]

/-! ## Buffered reads -/

theorem sample_sys_rd (rd : List ReadResult) (wr : List WriteResult) :
    (sample_sys rd wr).rd sample_event.fd = rd := rfl

theorem read_loop_step (fd : Int) (c : List Byte) (tail : List ReadResult) (num : Int)
    (e : event_t) (s : Sys) (old : List Byte) (hin : e.inb = buffer_ptr.live old)
    (hc : 1 ≤ c.length ∧ c.length ≤ 1024) (hz : c.length = 1024 → (0 : Byte) ∈ c)
    (hnum : num + (c.length : Int) ≤ INT_MAX) :
    event_buffer_read_loop fd (ReadResult.ret c :: tail) num e s
      = event_buffer_read_loop fd tail (num + (c.length : Int))
          { e with inb := buffer_ptr.live (old ++ c) }
          { s with log := s.log ++ [Call.read fd] } := by
  have htake : List.take 1024 c = c := List.take_of_length_le hc.2
  have hne : ¬ ((c.length : Int) = 0) := by omega
  have hpr : ¬ (c.length = 1024 ∧ (0 : Byte) ∉ c) := fun h => h.2 (hz h.1)
  have hov : ¬ (num + (c.length : Int) > INT_MAX) := not_lt.mpr hnum
  simp only [event_buffer_read_loop, htake, hne, hpr, hov, if_false, evbuf_in, hin, buffer_add]

theorem read_loop_unterminated (fd : Int) (c : List Byte) (tail : List ReadResult) (num : Int)
    (e : event_t) (s : Sys) (hlen : c.length = 1024) (hz : (0 : Byte) ∉ c) :
    event_buffer_read_loop fd (ReadResult.ret c :: tail) num e s
      = Except.error Fault.unterminatedString := by
  have htake : List.take 1024 c = c := List.take_of_length_le (le_of_eq hlen)
  have hne : ¬ ((c.length : Int) = 0) := by omega
  simp only [event_buffer_read_loop, htake]
  rw [if_neg hne, if_pos ⟨hlen, hz⟩]

theorem ebr_of_loop_error (e : event_t) (s : Sys) (f : Fault)
    (h : event_buffer_read_loop e.fd (s.rd e.fd) 0 e s = Except.error f) :
    event_buffer_read e s = Except.error f := by
  simp only [event_buffer_read, h]

theorem read_loop_overflow (fd : Int) (c : List Byte) (rest : List ReadResult)
    (hc : 1 ≤ c.length ∧ c.length ≤ 1024) (hz : c.length = 1024 → (0 : Byte) ∈ c) :
    ∀ (k : Nat) (num : Int) (e : event_t) (s : Sys) (old : List Byte),
      e.inb = buffer_ptr.live old → num ≤ INT_MAX →
      num + (k : Int) * (c.length : Int) > INT_MAX →
      event_buffer_read_loop fd (List.replicate k (ReadResult.ret c) ++ rest) num e s
        = Except.error Fault.intOverflow := by
  intro k
  induction k with
  | zero =>
    intro num e s old _ h1 h2
    simp only [Nat.cast_zero, zero_mul, add_zero] at h2
    omega
  | succ k ih =>
    intro num e s old hin h1 h2
    rw [List.replicate_succ, List.cons_append]
    by_cases hov : num + (c.length : Int) > INT_MAX
    · have htake : List.take 1024 c = c := List.take_of_length_le hc.2
      have hne : ¬ ((c.length : Int) = 0) := by omega
      have hpr : ¬ (c.length = 1024 ∧ (0 : Byte) ∉ c) := fun h => h.2 (hz h.1)
      simp only [event_buffer_read_loop, htake, hne, hpr, hov, if_false, if_true, evbuf_in, hin,
        buffer_add]
    · rw [read_loop_step fd c _ num e s old hin hc hz (not_lt.mp hov)]
      refine ih _ _ _ (old ++ c) rfl (not_lt.mp hov) ?_
      have h3 : ((k + 1 : Nat) : Int) * (c.length : Int)
          = (c.length : Int) + (k : Int) * (c.length : Int) := by push_cast; ring
      rw [h3] at h2
      linarith

theorem read_loop_chunks (fd : Int) (chunks : List (List Byte)) (rest : List ReadResult) :
    ∀ (num : Int) (e : event_t) (s : Sys) (old : List Byte),
      e.inb = buffer_ptr.live old →
      (∀ c ∈ chunks, 1 ≤ c.length ∧ c.length ≤ 1024 ∧ (c.length = 1024 → (0 : Byte) ∈ c)) →
      num + (chunks.flatten.length : Int) ≤ INT_MAX →
      ∃ s1, event_buffer_read_loop fd
          (chunks.map ReadResult.ret ++ ReadResult.fail Errno.EWOULDBLOCK :: rest) num e s
        = Except.ok (num + (chunks.flatten.length : Int),
            { e with inb := buffer_ptr.live (old ++ chunks.flatten) }, s1, rest) ∧
        s1.interest = s.interest ∧ s1.sent = s.sent ∧ s1.wr = s.wr ∧ s1.rd = s.rd := by
  induction chunks with
  | nil =>
    intro num e s old hin _ _
    refine ⟨{ s with log := s.log ++ [Call.read fd] }, ?_, rfl, rfl, rfl, rfl⟩
    cases e
    simp only [] at hin
    subst hin
    simp [event_buffer_read_loop]
  | cons c cs ih =>
    intro num e s old hin hall hsum
    have hc := hall c (List.mem_cons_self _ _)
    have hlen : ((c :: cs).flatten.length : Int)
        = (c.length : Int) + (cs.flatten.length : Int) := by
      simp [List.flatten_cons, List.length_append]
    rw [hlen] at hsum
    have hstep : num + (c.length : Int) ≤ INT_MAX := by
      have : (0 : Int) ≤ (cs.flatten.length : Int) := Int.natCast_nonneg _
      linarith
    obtain ⟨s1, h1, h2, h3, h4, h5⟩ := ih (num + (c.length : Int))
      { e with inb := buffer_ptr.live (old ++ c) }
      { s with log := s.log ++ [Call.read fd] } (old ++ c) rfl
      (fun c1 hc1 => hall c1 (List.mem_cons_of_mem _ hc1)) (by linarith)
    refine ⟨s1, ?_, h2, h3, h4, h5⟩
    rw [List.map_cons, List.cons_append,
      read_loop_step fd c _ num e s old hin ⟨hc.1, hc.2.1⟩ hc.2.2 hstep, h1]
    simp [List.append_assoc, add_assoc]

/-- C10 (as stated, refuted): one `read` that fills all 1024 bytes of `buf` with the
non-zero byte 65, followed by would-block. `event_buffer_read` does not return 1024:
the `printf("%s", buf)` of the loop body reads behind the end of `buf`. And 2097152
reads of 1024 zero bytes each (2147483648 bytes in all), followed by would-block: the
call does not return that total, the addition `num += n` leaves the range of `int`. -/
theorem event_buffer_read_full_buffer_and_total :
    event_buffer_read sample_event
        (sample_sys [ReadResult.ret (List.replicate 1024 65),
          ReadResult.fail Errno.EWOULDBLOCK] [])
      = Except.error Fault.unterminatedString ∧
    event_buffer_read sample_event
        (sample_sys (List.replicate 2097152 (ReadResult.ret (List.replicate 1024 0))
          ++ [ReadResult.fail Errno.EWOULDBLOCK]) [])
      = Except.error Fault.intOverflow := by
  constructor
  · have h := read_loop_unterminated sample_event.fd (List.replicate 1024 65)
      [ReadResult.fail Errno.EWOULDBLOCK] 0 sample_event
      (sample_sys [ReadResult.ret (List.replicate 1024 65),
          ReadResult.fail Errno.EWOULDBLOCK] [])
      (List.length_replicate _ _)
      (fun h => absurd (List.eq_of_mem_replicate h) (by decide))
    refine ebr_of_loop_error _ _ _ ?_
    rw [sample_sys_rd]
    exact h
  · have h := read_loop_overflow sample_event.fd (List.replicate 1024 0)
      [ReadResult.fail Errno.EWOULDBLOCK]
      ⟨by rw [List.length_replicate]; decide, by rw [List.length_replicate]⟩
      (fun _ => List.mem_replicate.mpr ⟨by decide, rfl⟩)
      2097152 0 sample_event
      (sample_sys (List.replicate 2097152 (ReadResult.ret (List.replicate 1024 0))
          ++ [ReadResult.fail Errno.EWOULDBLOCK]) [])
      [] rfl (by decide)
      (by rw [List.length_replicate]; decide)
    refine ebr_of_loop_error _ _ _ ?_
    rw [sample_sys_rd]
    exact h

/-- C10 (amended): when the coming `read` calls deliver the chunks `chunks` (each of 1 to
1024 bytes, with a zero byte among them when there are 1024) and the one after them
would block, and the total number of bytes `M` is at most `INT_MAX`, a single call of
`event_buffer_read` on an event whose input buffer holds `old` returns `M`, leaves
the input buffer at `old` followed by all the chunks in arrival order, and leaves the
event registered as it was. -/
theorem event_buffer_read_drains (e : event_t) (s : Sys) (old : List Byte)
    (chunks : List (List Byte)) (rest : List ReadResult)
    (hin : e.inb = buffer_ptr.live old)
    (hchunks : ∀ c ∈ chunks,
      1 ≤ c.length ∧ c.length ≤ 1024 ∧ (c.length = 1024 → (0 : Byte) ∈ c))
    (htotal : (chunks.flatten.length : Int) ≤ INT_MAX)
    (hscript : s.rd e.fd
      = chunks.map ReadResult.ret ++ ReadResult.fail Errno.EWOULDBLOCK :: rest) :
    ∃ s1, event_buffer_read e s
        = Except.ok ((chunks.flatten.length : Int),
            { e with inb := buffer_ptr.live (old ++ chunks.flatten) }, s1) ∧
      s1.rd e.fd = rest ∧ s1.interest = s.interest ∧ s1.sent = s.sent := by
  obtain ⟨s1, h1, h2, h3, _, _⟩ := read_loop_chunks e.fd chunks rest 0 e s old hin hchunks
    (by rw [zero_add]; exact htotal)
  refine ⟨{ s1 with rd := upd s1.rd e.fd rest }, ?_, by simp [upd_same], h2, h3⟩
  simp only [event_buffer_read, hscript, h1, zero_add]

/-- Witness of `event_buffer_read_drains`: five bytes arriving as `[1, 2]`, `[3]`, `[4, 5]`. -/
theorem event_buffer_read_drains_witness :
    ∃ s1, event_buffer_read sample_event
          (sample_sys [ReadResult.ret [1, 2], ReadResult.ret [3], ReadResult.ret [4, 5],
            ReadResult.fail Errno.EWOULDBLOCK] [])
        = Except.ok ((([[1, 2], [3], [4, 5]] : List (List Byte)).flatten.length : Int),
            { sample_event with
                inb := buffer_ptr.live ([] ++ ([[1, 2], [3], [4, 5]] : List (List Byte)).flatten) },
            s1) ∧
      s1.rd sample_event.fd = [] ∧
      s1.interest = (sample_sys [ReadResult.ret [1, 2], ReadResult.ret [3],
            ReadResult.ret [4, 5], ReadResult.fail Errno.EWOULDBLOCK] []).interest ∧
      s1.sent = (sample_sys [ReadResult.ret [1, 2], ReadResult.ret [3],
            ReadResult.ret [4, 5], ReadResult.fail Errno.EWOULDBLOCK] []).sent :=
  event_buffer_read_drains sample_event
    (sample_sys [ReadResult.ret [1, 2], ReadResult.ret [3], ReadResult.ret [4, 5],
      ReadResult.fail Errno.EWOULDBLOCK] [])
    [] [[1, 2], [3], [4, 5]] [] rfl (by decide) (by decide) rfl

/-! ## Reads: return value and close -/

/-- C11 (evaluation at the failing inputs): `event_buffer_read` returns 0 when the peer
has closed (zero-length read), 0 as well when the first read would block with no data,
and 0, not -1, when the read fails with errno 104. -/
theorem event_buffer_read_returns_zero_thrice :
    (event_buffer_read sample_event (sample_sys [ReadResult.ret []] [])).map Prod.fst
      = Except.ok 0 ∧
    (event_buffer_read sample_event
        (sample_sys [ReadResult.fail Errno.EWOULDBLOCK] [])).map Prod.fst = Except.ok 0 ∧
    (event_buffer_read sample_event
        (sample_sys [ReadResult.fail (Errno.hard 104)] [])).map Prod.fst = Except.ok 0 := by
  refine ⟨rfl, rfl, rfl⟩

/-- C12 (evaluation at the failing input): the connection in slot 1 has `read_cb` as read
callback, no write callback and error callback 7; the peer has closed. For the fired
mask `EPOLLIN` the pass ends with one error callback and one teardown in the log. For
the fired mask `EPOLLHUP` (and for `EPOLLIN | EPOLLOUT`) the pass goes on, after that
teardown, to the default flush on the output buffer `del_event` has released. -/
theorem close_then_flush_on_released_buffer :
    (dispatch (server_cb buffer_search) (serving sample_event (sample_sys [ReadResult.ret []] []))
        (epoll_event.mk EPOLLIN 1)).map (fun w => w.s.log)
      = Except.ok [Call.read 5, Call.error_fn 7 5, Call.epoll_ctl CtlOp.DEL 5 0,
          Call.free_event 5, Call.close 5] ∧
    dispatch (server_cb buffer_search) (serving sample_event (sample_sys [ReadResult.ret []] []))
        (epoll_event.mk EPOLLHUP 1) = Except.error Fault.useAfterFree ∧
    dispatch (server_cb buffer_search) (serving sample_event (sample_sys [ReadResult.ret []] []))
        (epoll_event.mk (EPOLLIN ||| EPOLLOUT) 1) = Except.error Fault.useAfterFree := by
  refine ⟨rfl, rfl, rfl⟩

/-- C13 (evaluation at the failing input): fired mask `EPOLLIN | EPOLLOUT`, the read
callback `read_cb` meets the closed peer and unregisters the event through `del_event`.
The writable step still reads `et->write_fn`: with write callback 9 set it calls it
(last entry of the log, after the `close`), with none set it starts the default
flush on the released output buffer. -/
theorem writable_step_after_del_event :
    (dispatch (server_cb buffer_search)
        (serving { sample_event with write_fn := some 9 } (sample_sys [ReadResult.ret []] []))
        (epoll_event.mk (EPOLLIN ||| EPOLLOUT) 1)).map (fun w => w.s.log)
      = Except.ok [Call.read 5, Call.error_fn 7 5, Call.epoll_ctl CtlOp.DEL 5 0,
          Call.free_event 5, Call.close 5, Call.callback 9 5 EPOLLOUT 1] ∧
    (dispatch (server_cb buffer_search)
        (serving { sample_event with write_fn := some 9 } (sample_sys [ReadResult.ret []] []))
        (epoll_event.mk (EPOLLIN ||| EPOLLOUT) 1)).map (fun w => (w.R.events 1).out)
      = Except.ok buffer_ptr.released ∧
    dispatch (server_cb buffer_search) (serving sample_event (sample_sys [ReadResult.ret []] []))
        (epoll_event.mk (EPOLLIN ||| EPOLLOUT) 1) = Except.error Fault.useAfterFree := by
  refine ⟨rfl, rfl, rfl⟩

/-! ## Dispatch order -/

theorem effective_mask_eq (x : Nat) :
    (if x &&& EPOLLHUP ≠ 0
      then (if x &&& EPOLLERR ≠ 0 then x ||| (EPOLLIN ||| EPOLLOUT) else x)
        ||| (EPOLLIN ||| EPOLLOUT)
      else (if x &&& EPOLLERR ≠ 0 then x ||| (EPOLLIN ||| EPOLLOUT) else x))
      = spec_effective_mask x := by
  unfold spec_effective_mask
  by_cases h1 : x &&& EPOLLERR = 0 <;> by_cases h2 : x &&& EPOLLHUP = 0 <;>
    simp [h1, h2, Nat.or_assoc]

theorem dispatch_eq_spec (cb : Callbacks) (w : World) (ev : epoll_event) :
    dispatch cb w ev = spec_dispatch cb w ev := by
  unfold dispatch spec_dispatch spec_read_dispatch spec_write_dispatch spec_default_flush
  simp only [effective_mask_eq]
  by_cases hr : spec_effective_mask ev.events &&& EPOLLIN = 0 <;>
    by_cases hw : spec_effective_mask ev.events &&& EPOLLOUT = 0 <;>
    simp only [hr, hw, ne_eq, not_true_eq_false, not_false_eq_true, if_true, if_false]
  all_goals simp only [bind, Except.bind, pure, Except.pure]
  · cases hd : deref w ev.ptr with
    | error f => rfl
    | ok e =>
      cases hf : e.write_fn with
      | some fn => simp only [hf]
      | none =>
        simp only [hf]
        cases hb : buffer_write_atmost (evbuf_out e) with
        | error f => rfl
        | ok buf =>
          simp only []
          cases hx : event_buffer_write e buf w.s <;> rfl
  · cases hd : deref w ev.ptr with
    | error f => rfl
    | ok e =>
      cases hf : e.read_fn with
      | none => simp only [hf]
      | some fn => simp only [hf]; cases cb fn e.fd EPOLLIN ev.ptr w <;> rfl
  · cases hd : deref w ev.ptr with
    | error f => rfl
    | ok e =>
      cases hf : e.read_fn with
      | none =>
        simp only [hf, hd]
        cases hg : e.write_fn with
        | some fn => simp only [hg]
        | none =>
          simp only [hg]
          cases hb : buffer_write_atmost (evbuf_out e) with
          | error f => rfl
          | ok buf =>
            simp only []
            cases hx : event_buffer_write e buf w.s <;> rfl
      | some fn =>
        simp only [hf]
        cases cb fn e.fd EPOLLIN ev.ptr w with
        | error f => rfl
        | ok w1 =>
          simp only []
          cases hd1 : deref w1 ev.ptr with
          | error f => rfl
          | ok e1 =>
            cases hg : e1.write_fn with
            | some fn1 => simp only [hg]
            | none =>
              simp only [hg]
              cases hb : buffer_write_atmost (evbuf_out e1) with
              | error f => rfl
              | ok buf =>
                simp only []
                cases hx : event_buffer_write e1 buf w1.s <;> rfl
theorem dispatch_all_eq_spec (cb : Callbacks) (l : List epoll_event) :
    ∀ w, dispatch_all cb l w = l.foldlM (spec_dispatch cb) w := by
  induction l with
  | nil => intro w; rfl
  | cons ev evs ih =>
    intro w
    simp only [dispatch_all, List.foldlM_cons, dispatch_eq_spec, bind, Except.bind]
    cases spec_dispatch cb w ev with
    | error f => rfl
    | ok w1 => exact ih w1

theorem eventloop_once_no_result (cb : Callbacks) (w : World) (n : Int)
    (fire : List epoll_event) (h : n ≤ 0) : eventloop_once cb w n fire = Except.ok w := by
  have h0 : n.toNat = 0 := Int.toNat_eq_zero.mpr h
  simp only [eventloop_once, h0, List.take_zero, dispatch_all]

theorem deref_in_pool (w : World) (et : Nat) (h : et < MAX_CONN) :
    deref w et = Except.ok (w.R.events et) := by
  simp only [deref, h, if_true]

theorem dispatch_log_cb (w : World) (ev : epoll_event) (hp : ev.ptr < MAX_CONN)
    (hw : spec_effective_mask ev.events &&& EPOLLOUT ≠ 0 → (w.R.events ev.ptr).write_fn ≠ none) :
    dispatch log_cb w ev = Except.ok (add_log w (expected_calls w ev)) := by
  rw [dispatch_eq_spec]
  unfold spec_dispatch spec_read_dispatch spec_write_dispatch expected_calls
  by_cases h1 : spec_effective_mask ev.events &&& EPOLLIN = 0
  · by_cases h2 : spec_effective_mask ev.events &&& EPOLLOUT = 0
    · simp [h1, h2, add_log, bind, Except.bind, pure, Except.pure]
    · obtain ⟨fn, hfn⟩ := Option.ne_none_iff_exists'.mp (hw h2)
      simp [h1, h2, add_log, bind, Except.bind, pure, Except.pure, deref_in_pool w ev.ptr hp,
        hfn, log_cb]
  · by_cases h2 : spec_effective_mask ev.events &&& EPOLLOUT = 0
    · cases hr : (w.R.events ev.ptr).read_fn with
      | none =>
        simp [h1, h2, add_log, bind, Except.bind, pure, Except.pure,
          deref_in_pool w ev.ptr hp, hr]
      | some fn =>
        simp [h1, h2, add_log, bind, Except.bind, pure, Except.pure,
          deref_in_pool w ev.ptr hp, hr, log_cb]
    · obtain ⟨fn, hfn⟩ := Option.ne_none_iff_exists'.mp (hw h2)
      cases hr : (w.R.events ev.ptr).read_fn with
      | none =>
        simp [h1, h2, add_log, bind, Except.bind, pure, Except.pure,
          deref_in_pool w ev.ptr hp, hr, hfn, log_cb]
      | some fn1 =>
        simp [h1, h2, add_log, bind, Except.bind, pure, Except.pure,
          deref_in_pool, deref, hp, hr, hfn, log_cb]

theorem expected_calls_add_log (w : World) (l : List Call) (ev : epoll_event) :
    expected_calls (add_log w l) ev = expected_calls w ev := rfl

theorem add_log_add_log (w : World) (a b : List Call) :
    add_log (add_log w a) b = add_log w (a ++ b) := by
  simp [add_log, List.append_assoc]

theorem dispatch_all_log_cb (fire : List epoll_event) :
    ∀ (w : World) (acc : List Call),
      (∀ ev ∈ fire, ev.ptr < MAX_CONN ∧
        (spec_effective_mask ev.events &&& EPOLLOUT ≠ 0 →
          (w.R.events ev.ptr).write_fn ≠ none)) →
      dispatch_all log_cb fire (add_log w acc)
        = Except.ok (add_log w (acc ++ (fire.map (expected_calls w)).flatten)) := by
  induction fire with
  | nil => intro w acc _; simp [dispatch_all]
  | cons ev evs ih =>
    intro w acc hall
    have h1 := hall ev (List.mem_cons_self _ _)
    rw [dispatch_all, dispatch_log_cb (add_log w acc) ev h1.1 h1.2, expected_calls_add_log,
      add_log_add_log]
    simp only []
    rw [ih w _ (fun e he => hall e (List.mem_cons_of_mem _ he))]
    simp [List.append_assoc]

theorem add_log_nil (w : World) : add_log w [] = w := by
  simp [add_log]

/-- C14: for every list of fired results, `eventloop_once` does what the spec says in
its words (`spec_eventloop_once`: results in list order; per result the effective mask
is the fired mask plus readable and writable when error or hangup is set; the read
callback iff readable and set, after it the write callback iff writable and set).
With a wait result `n <= 0` nothing is dispatched. With callbacks that only log their
invocation, and a write callback set wherever a result is writable, the pass leaves
in the log exactly the invocations expected, in that order. -/
theorem eventloop_once_dispatch_order (cb : Callbacks) (w : World) (n : Int)
    (fire : List epoll_event) :
    eventloop_once cb w n fire = spec_eventloop_once cb w n fire ∧
    (n ≤ 0 → eventloop_once cb w n fire = Except.ok w) ∧
    ((∀ ev ∈ fire, ev.ptr < MAX_CONN ∧
        (spec_effective_mask ev.events &&& EPOLLOUT ≠ 0 →
          (w.R.events ev.ptr).write_fn ≠ none)) →
      eventloop_once log_cb w fire.length fire
        = Except.ok (add_log w ((fire.map (expected_calls w)).flatten))) := by
  refine ⟨?_, eventloop_once_no_result cb w n fire, ?_⟩
  · by_cases h : n ≤ 0
    · rw [eventloop_once_no_result cb w n fire h]
      simp only [spec_eventloop_once, h, if_true, pure, Except.pure]
    · simp only [spec_eventloop_once, h, if_false, eventloop_once, dispatch_all_eq_spec]
  · intro hall
    have h := dispatch_all_log_cb fire w [] hall
    rw [add_log_nil, List.nil_append] at h
    simp only [eventloop_once, Int.toNat_ofNat, List.take_length]
    exact h

/-- Witness of `eventloop_once_dispatch_order`: the event in slot 1 has read callback 2
and write callback 9; the fired results are "readable" and then "hangup". -/
theorem eventloop_once_dispatch_order_witness :
    eventloop_once log_cb
        (serving { sample_event with write_fn := some 9 } (sample_sys [] [])) 0
        [epoll_event.mk EPOLLIN 1, epoll_event.mk EPOLLHUP 1]
      = Except.ok (serving { sample_event with write_fn := some 9 } (sample_sys [] [])) ∧
    eventloop_once log_cb
        (serving { sample_event with write_fn := some 9 } (sample_sys [] []))
        ([epoll_event.mk EPOLLIN 1, epoll_event.mk EPOLLHUP 1] : List epoll_event).length
        [epoll_event.mk EPOLLIN 1, epoll_event.mk EPOLLHUP 1]
      = Except.ok (add_log (serving { sample_event with write_fn := some 9 } (sample_sys [] []))
          (([epoll_event.mk EPOLLIN 1, epoll_event.mk EPOLLHUP 1].map
            (expected_calls
              (serving { sample_event with write_fn := some 9 } (sample_sys [] [])))).flatten)) ∧
    ([epoll_event.mk EPOLLIN 1, epoll_event.mk EPOLLHUP 1].map
        (expected_calls
          (serving { sample_event with write_fn := some 9 } (sample_sys [] [])))).flatten
      = [Call.callback 2 5 EPOLLIN 1, Call.callback 2 5 EPOLLIN 1,
         Call.callback 9 5 EPOLLOUT 1] :=
  ⟨(eventloop_once_dispatch_order log_cb
      (serving { sample_event with write_fn := some 9 } (sample_sys [] [])) 0
      [epoll_event.mk EPOLLIN 1, epoll_event.mk EPOLLHUP 1]).2.1 (le_refl 0),
   (eventloop_once_dispatch_order log_cb
      (serving { sample_event with write_fn := some 9 } (sample_sys [] [])) 0
      [epoll_event.mk EPOLLIN 1, epoll_event.mk EPOLLHUP 1]).2.2 (by decide),
   by decide⟩

/-! ## Stopping the loop -/

/-- C15: `stop_eventloop` changes the stop flag only. `eventloop` entered with the flag
set makes no `epoll_wait` and no dispatch: it returns at once with every listed wait
result unused. When the flag is clear at entry and is set after the pass over the
first wait result (a callback called `stop_eventloop`), the world is the one
`eventloop_once` leaves after that whole pass, and `eventloop` returns without using
a further wait result. -/
theorem stop_takes_effect_at_loop_boundary (cb : Callbacks) (w : World) :
    (∀ r : reactor_t, (stop_eventloop r).stop = 1 ∧ (stop_eventloop r).events = r.events ∧
      (stop_eventloop r).iter = r.iter ∧ (stop_eventloop r).listenfd = r.listenfd ∧
      (stop_eventloop r).addr = r.addr) ∧
    (∀ waits, w.R.stop ≠ 0 → eventloop cb waits w = Except.ok (w, waits, true)) ∧
    (∀ (wr : wait_result) (rest : List wait_result) (w1 : World), w.R.stop = 0 →
      eventloop_once cb w wr.n wr.fire = Except.ok w1 → w1.R.stop ≠ 0 →
      eventloop cb (wr :: rest) w = Except.ok (w1, rest, true)) := by
  refine ⟨fun r => ⟨rfl, rfl, rfl, rfl, rfl⟩, ?_, ?_⟩
  · intro waits h
    cases waits with
    | nil => simp [eventloop, h]
    | cons wr rest => simp [eventloop, h]
  · intro wr rest w1 h0 h1 h2
    rw [eventloop]
    simp only [h0, ne_eq, not_true_eq_false, if_false, h1]
    cases rest with
    | nil => simp [eventloop, h2]
    | cons wr2 rest2 => simp [eventloop, h2]

/-- Witness of `stop_takes_effect_at_loop_boundary`: three readable results in one wait,
the callback of the first one calls `stop_eventloop`. All three callbacks run in that
pass, the second wait result is left unused and `eventloop` has returned. -/
theorem stop_takes_effect_at_loop_boundary_witness :
    eventloop stopping_cb
        [wait_result.mk 3 [epoll_event.mk EPOLLIN 1, epoll_event.mk EPOLLIN 2,
            epoll_event.mk EPOLLIN 3],
         wait_result.mk 1 [epoll_event.mk EPOLLIN 2]] three_events
      = Except.ok
          (add_log { three_events with R := stop_eventloop three_events.R }
            [Call.callback 8 5 EPOLLIN 1, Call.callback 21 6 EPOLLIN 2,
             Call.callback 22 7 EPOLLIN 3],
           [wait_result.mk 1 [epoll_event.mk EPOLLIN 2]], true) :=
  (stop_takes_effect_at_loop_boundary stopping_cb three_events).2.2
    (wait_result.mk 3 [epoll_event.mk EPOLLIN 1, epoll_event.mk EPOLLIN 2,
      epoll_event.mk EPOLLIN 3])
    [wait_result.mk 1 [epoll_event.mk EPOLLIN 2]]
    (add_log { three_events with R := stop_eventloop three_events.R }
      [Call.callback 8 5 EPOLLIN 1, Call.callback 21 6 EPOLLIN 2,
       Call.callback 22 7 EPOLLIN 3])
    rfl rfl (by decide)

/-! ## The callback contract of `new_event` -/

/-- C16: `new_event` with the three callbacks all null stops at its `assert` before any
slot or the cursor is touched, and returns no event. With at least one callback set,
whenever `_get_event_t` returns a slot `e` of the pool, `new_event` returns that
slot with `fd`, owning reactor and the three callbacks as given and with fresh empty
input and output buffers; the cursor is the one `_get_event_t` left and no other
slot is changed. -/
theorem new_event_callback_contract (R : reactor_t) (fd : Int) (rd wt err : Option Nat) :
    (rd = none ∧ wt = none ∧ err = none →
      new_event R fd rd wt err = Except.error Fault.assertFailed) ∧
    (¬ (rd = none ∧ wt = none ∧ err = none) →
      ∀ (R0 : reactor_t) (e : Nat), _get_event_t R = Except.ok (R0, e) → e < MAX_CONN →
        ∃ R1, new_event R fd rd wt err = Except.ok (R1, e) ∧
          R1.events e
            = event_t.mk fd R.addr (buffer_ptr.live []) (buffer_ptr.live []) rd wt err ∧
          R1.iter = R0.iter ∧ ∀ j, j ≠ e → R1.events j = R.events j) := by
  refine ⟨fun h => by simp [new_event, h], ?_⟩
  intro h R0 e hg he
  have hR0 : R0.events = R.events := by
    unfold _get_event_t at hg
    cases hs : scan R.events (R.iter + 1) with
    | error f => rw [hs] at hg; cases hg
    | ok it =>
      rw [hs] at hg
      simp only [Except.ok.injEq, Prod.mk.injEq] at hg
      rw [← hg.1]
  refine ⟨reactor_t.mk R0.addr R0.listenfd R0.stop
      (setSlot R0.events e
        (event_t.mk fd R.addr (buffer_ptr.live []) (buffer_ptr.live []) rd wt err))
      R0.iter, ?_, ?_, rfl, ?_⟩
  · simp only [new_event, h, if_false, hg, he, if_true, buffer_new]
  · simp [setSlot]
  · intro j hj
    simp only [setSlot, hj, if_false, hR0]

/-- Witness of `new_event_callback_contract`: on a fresh reactor, descriptor 5 with a read
callback only gets slot 1. -/
theorem new_event_callback_contract_witness :
    new_event (create_reactor 1) 5 none none none = Except.error Fault.assertFailed ∧
    ∃ R1, new_event (create_reactor 1) 5 (some 2) none none = Except.ok (R1, 1) ∧
      R1.events 1
        = event_t.mk 5 (create_reactor 1).addr (buffer_ptr.live []) (buffer_ptr.live [])
            (some 2) none none ∧
      R1.iter = ({ create_reactor 1 with iter := 1 } : reactor_t).iter ∧
      ∀ j, j ≠ 1 → R1.events j = (create_reactor 1).events j :=
  ⟨(new_event_callback_contract (create_reactor 1) 5 none none none).1 ⟨rfl, rfl, rfl⟩,
   (new_event_callback_contract (create_reactor 1) 5 (some 2) none none).2 (by decide)
     { create_reactor 1 with iter := 1 } 1
     (by
       have hs : scan (create_reactor 1).events ((create_reactor 1).iter + 1)
           = Except.ok ((create_reactor 1).iter + 1) :=
         scan_stops _ _ (by decide) (by decide)
       simp only [_get_event_t, hs]
       rfl)
     (by decide)⟩

/-! ## The adapter hooks -/

/-- C17: for every bridge and kernel state, `redisAddRead` (`redisAddWrite`) with the bit
already in the mask and `redisDelRead` (`redisDelWrite`) with the bit absent leave the
mask as it is and return the kernel side unchanged: same registration and, the call
log being the same, no `epoll_ctl` call made. -/
theorem hooks_idempotent (re : redis_event_t) (s : Sys) :
    (re.mask &&& EPOLLIN ≠ 0 →
      (redisAddRead re s).1.mask = re.mask ∧ (redisAddRead re s).2 = s) ∧
    (re.mask &&& EPOLLOUT ≠ 0 →
      (redisAddWrite re s).1.mask = re.mask ∧ (redisAddWrite re s).2 = s) ∧
    (re.mask &&& EPOLLIN = 0 →
      (redisDelRead re s).1.mask = re.mask ∧ (redisDelRead re s).2 = s) ∧
    (re.mask &&& EPOLLOUT = 0 →
      (redisDelWrite re s).1.mask = re.mask ∧ (redisDelWrite re s).2 = s) := by
  refine ⟨fun h => ?_, fun h => ?_, fun h => ?_, fun h => ?_⟩
  · simp [redisAddRead, redisEventUpdate, h]
  · simp [redisAddWrite, redisEventUpdate, h]
  · simp [redisDelRead, redisEventUpdate, h]
  · simp [redisDelWrite, redisEventUpdate, h]

/-- Witness of `hooks_idempotent`: a bridge registered for reading only. -/
theorem hooks_idempotent_witness :
    ((redisAddRead (run_hooks [Hook.addRead] (attached 1 9 5 event_t.zero) Sys.init).1
        (run_hooks [Hook.addRead] (attached 1 9 5 event_t.zero) Sys.init).2).1.mask
      = (run_hooks [Hook.addRead] (attached 1 9 5 event_t.zero) Sys.init).1.mask ∧
     (redisAddRead (run_hooks [Hook.addRead] (attached 1 9 5 event_t.zero) Sys.init).1
        (run_hooks [Hook.addRead] (attached 1 9 5 event_t.zero) Sys.init).2).2
      = (run_hooks [Hook.addRead] (attached 1 9 5 event_t.zero) Sys.init).2) ∧
    ((redisDelWrite (run_hooks [Hook.addRead] (attached 1 9 5 event_t.zero) Sys.init).1
        (run_hooks [Hook.addRead] (attached 1 9 5 event_t.zero) Sys.init).2).1.mask
      = (run_hooks [Hook.addRead] (attached 1 9 5 event_t.zero) Sys.init).1.mask ∧
     (redisDelWrite (run_hooks [Hook.addRead] (attached 1 9 5 event_t.zero) Sys.init).1
        (run_hooks [Hook.addRead] (attached 1 9 5 event_t.zero) Sys.init).2).2
      = (run_hooks [Hook.addRead] (attached 1 9 5 event_t.zero) Sys.init).2) :=
  ⟨(hooks_idempotent (run_hooks [Hook.addRead] (attached 1 9 5 event_t.zero) Sys.init).1
      (run_hooks [Hook.addRead] (attached 1 9 5 event_t.zero) Sys.init).2).1 (by decide),
   (hooks_idempotent (run_hooks [Hook.addRead] (attached 1 9 5 event_t.zero) Sys.init).1
      (run_hooks [Hook.addRead] (attached 1 9 5 event_t.zero) Sys.init).2).2.2.2 (by decide)⟩

/-- C19: `redisAttach` on a connection whose hook data is set returns `REDIS_ERR` and the
connection as it was, making no bridge. On a connection without hook data, when
`hi_malloc` gives a block at address `p`, it returns `REDIS_OK`, the bridge has mask 0,
the descriptor of the connection and the reactor `r`, its buffer pointers are NULL,
and the connection has the five hooks of the adapter and `p` as hook data, with its
descriptor unchanged. -/
theorem redisAttach_exclusive (r : Nat) (ac : redisAsyncContext)
    (block : Option (Nat × redis_event_t)) :
    (ac.ev.data ≠ none → redisAttach r ac block = (REDIS_ERR, ac, none)) ∧
    (ac.ev.data = none → ∀ (p : Nat) (re0 : redis_event_t), block = some (p, re0) →
      ∃ (ac1 : redisAsyncContext) (re : redis_event_t),
        redisAttach r ac block = (REDIS_OK, ac1, some re) ∧
        re.mask = 0 ∧ re.e.fd = ac.c_fd ∧ re.e.r = r ∧ re.ctx = ac.addr ∧
        re.e.inb = buffer_ptr.null ∧ re.e.out = buffer_ptr.null ∧
        ac1.ev = redis_ev.mk (some p) (some hook_fn.redisAddRead) (some hook_fn.redisDelRead)
          (some hook_fn.redisAddWrite) (some hook_fn.redisDelWrite)
          (some hook_fn.redisCleanup) ∧
        ac1.c_fd = ac.c_fd ∧ ac1.addr = ac.addr) := by
  refine ⟨fun h => by simp [redisAttach, h], ?_⟩
  intro h p re0 hb
  subst hb
  refine ⟨redisAsyncContext.mk ac.addr ac.c_fd
      (redis_ev.mk (some p) (some hook_fn.redisAddRead) (some hook_fn.redisDelRead)
        (some hook_fn.redisAddWrite) (some hook_fn.redisDelWrite) (some hook_fn.redisCleanup)),
    attached r ac.addr ac.c_fd re0.e, ?_, ?_⟩
  · simp only [redisAttach, h, ne_eq, not_true_eq_false, if_false]
  · simp [attached]

/-- Witness of `redisAttach_exclusive`: the first attach of a connection succeeds and
installs the hooks, a second attach on the connection it returned fails and changes
nothing. -/
theorem redisAttach_exclusive_witness :
    (∃ (ac1 : redisAsyncContext) (re : redis_event_t),
      redisAttach 1 (redisAsyncContext.mk 9 5 (redis_ev.mk none none none none none none))
          (some (40, attached 0 0 0 event_t.zero)) = (REDIS_OK, ac1, some re) ∧
      re.mask = 0 ∧ re.e.fd = 5 ∧ re.e.r = 1 ∧ re.ctx = 9 ∧
      re.e.inb = buffer_ptr.null ∧ re.e.out = buffer_ptr.null ∧
      ac1.ev = redis_ev.mk (some 40) (some hook_fn.redisAddRead) (some hook_fn.redisDelRead)
        (some hook_fn.redisAddWrite) (some hook_fn.redisDelWrite)
        (some hook_fn.redisCleanup) ∧
      ac1.c_fd = 5 ∧ ac1.addr = 9) ∧
    redisAttach 1
        (redisAttach 1 (redisAsyncContext.mk 9 5 (redis_ev.mk none none none none none none))
          (some (40, attached 0 0 0 event_t.zero))).2.1
        (some (50, attached 0 0 0 event_t.zero))
      = (REDIS_ERR,
         (redisAttach 1 (redisAsyncContext.mk 9 5 (redis_ev.mk none none none none none none))
          (some (40, attached 0 0 0 event_t.zero))).2.1, none) :=
  ⟨(redisAttach_exclusive 1
      (redisAsyncContext.mk 9 5 (redis_ev.mk none none none none none none))
      (some (40, attached 0 0 0 event_t.zero))).2 rfl 40 (attached 0 0 0 event_t.zero) rfl,
   (redisAttach_exclusive 1
    (redisAttach 1 (redisAsyncContext.mk 9 5 (redis_ev.mk none none none none none none))
      (some (40, attached 0 0 0 event_t.zero))).2.1
    (some (50, attached 0 0 0 event_t.zero))).1 (by decide)⟩

/-! ## The echo callback -/

theorem ebr_chunks (e : event_t) (s : Sys) (old : List Byte)
    (chunks : List (List Byte)) (rest : List ReadResult)
    (hin : e.inb = buffer_ptr.live old)
    (hchunks : ∀ c ∈ chunks,
      1 ≤ c.length ∧ c.length ≤ 1024 ∧ (c.length = 1024 → (0 : Byte) ∈ c))
    (htotal : (chunks.flatten.length : Int) ≤ INT_MAX)
    (hscript : s.rd e.fd
      = chunks.map ReadResult.ret ++ ReadResult.fail Errno.EWOULDBLOCK :: rest) :
    ∃ s1, event_buffer_read e s
        = Except.ok ((chunks.flatten.length : Int),
            { e with inb := buffer_ptr.live (old ++ chunks.flatten) }, s1) ∧
      s1.rd e.fd = rest ∧ s1.interest = s.interest ∧ s1.sent = s.sent ∧ s1.wr = s.wr := by
  obtain ⟨s1, h1, h2, h3, h4, _⟩ := read_loop_chunks e.fd chunks rest 0 e s old hin hchunks
    (by rw [zero_add]; exact htotal)
  refine ⟨{ s1 with rd := upd s1.rd e.fd rest }, ?_, by simp [upd_same], h2, h3, h4⟩
  simp only [event_buffer_read, hscript, h1, zero_add]

/-- C20 (as stated, refuted): with the search of the spec, which gives the offset 4 of
`"\n"` in `"ping\n"`, `read_cb` on a descriptor that delivers exactly `"ping\n"` and
then would block takes 4 bytes out of the input buffer and offers the 4 bytes `"ping"`
to the descriptor; the byte `"\n"` stays in the input buffer. -/
theorem read_cb_with_offset_search_strips_four :
    buffer_search (buffer_ptr.live ping) [10] = Except.ok 4 ∧
    (read_cb_event buffer_search sample_event
        (sample_sys [ReadResult.ret ping, ReadResult.fail Errno.EWOULDBLOCK]
          [WriteResult.accept 100])).map (fun r => (r.1.inb, r.2.sent 5, r.2.log))
      = Except.ok (buffer_ptr.live [10], [112, 105, 110, 103],
          [Call.read 5, Call.read 5, Call.write 5 [112, 105, 110, 103]]) := by
  refine ⟨rfl, rfl⟩

/-- C20 (amended): `read_cb` on an event with an empty input buffer whose descriptor
delivers exactly `payload` (1 to 1024 bytes, with a zero byte among them when there
are 1024, so that the `printf` of `event_buffer_read` stays inside its array) and
then would block. When the search
for `"\n"` in the input buffer returns `len` with `0 < len < 1024` and `len` at most
the size of the payload, `read_cb` takes the first `len` bytes out of the input
buffer and passes exactly those bytes to `event_buffer_write`; the input buffer is
left with the bytes behind them. -/
theorem read_cb_strips_what_search_returns (search : Search) (e : event_t) (s : Sys)
    (payload : List Byte) (len : Int) (rest : List ReadResult)
    (hin : e.inb = buffer_ptr.live [])
    (hp : 1 ≤ payload.length ∧ payload.length ≤ 1024)
    (hz : payload.length = 1024 → (0 : Byte) ∈ payload)
    (hscript : s.rd e.fd
      = ReadResult.ret payload :: ReadResult.fail Errno.EWOULDBLOCK :: rest)
    (hs : search (buffer_ptr.live payload) [10] = Except.ok len)
    (h0 : 0 < len) (h1 : len < 1024) (hle : len.toNat ≤ payload.length) :
    ∃ s1, s1.wr = s.wr ∧ s1.sent = s.sent ∧ s1.interest = s.interest ∧ s1.rd e.fd = rest ∧
      read_cb_event search e s
        = (event_buffer_write { e with inb := buffer_ptr.live (payload.drop len.toNat) }
            (payload.take len.toNat) s1).map (fun r => (r.2.1, r.2.2)) := by
  obtain ⟨s1, k1, k2, k3, k4, k5⟩ := ebr_chunks e s [] [payload] rest hin
    (by intro c hc; simp only [List.mem_singleton] at hc; subst hc; exact ⟨hp.1, hp.2, hz⟩)
    (by
      have h2 : payload.length ≤ 1024 := hp.2
      simp only [List.flatten_cons, List.flatten_nil, List.append_nil, INT_MAX]
      omega)
    (by simpa using hscript)
  refine ⟨s1, k5, k4, k3, k2, ?_⟩
  have hn : (payload.length : Int) > 0 := by omega
  have hcond : len > 0 ∧ len < 1024 := ⟨h0, h1⟩
  have hlen : (List.take len.toNat payload).length = len.toNat := by
    rw [List.length_take]; exact Nat.min_eq_left hle
  simp only [read_cb_event, k1, hn, if_true, evbuf_in, List.nil_append, List.flatten_cons,
    List.flatten_nil, List.append_nil, hs, hcond, and_self, buffer_remove, hlen, Nat.sub_self,
    List.replicate_zero]
  cases event_buffer_write { e with inb := buffer_ptr.live (payload.drop len.toNat) }
      (payload.take len.toNat) s1 <;> rfl

/-- Witness of `read_cb_strips_what_search_returns`: with a search that returns 5 for
`"ping\n"`, all 5 bytes are taken out and passed on. -/
theorem read_cb_strips_what_search_returns_witness :
    (∃ s1, s1.wr = (sample_sys [ReadResult.ret ping, ReadResult.fail Errno.EWOULDBLOCK]
          [WriteResult.accept 100]).wr ∧
      s1.sent = (sample_sys [ReadResult.ret ping, ReadResult.fail Errno.EWOULDBLOCK]
          [WriteResult.accept 100]).sent ∧
      s1.interest = (sample_sys [ReadResult.ret ping, ReadResult.fail Errno.EWOULDBLOCK]
          [WriteResult.accept 100]).interest ∧
      s1.rd sample_event.fd = [] ∧
      read_cb_event search_through sample_event
          (sample_sys [ReadResult.ret ping, ReadResult.fail Errno.EWOULDBLOCK]
            [WriteResult.accept 100])
        = (event_buffer_write
            { sample_event with inb := buffer_ptr.live (ping.drop (5 : Int).toNat) }
            (ping.take (5 : Int).toNat) s1).map (fun r => (r.2.1, r.2.2))) ∧
    (read_cb_event search_through sample_event
        (sample_sys [ReadResult.ret ping, ReadResult.fail Errno.EWOULDBLOCK]
          [WriteResult.accept 100])).map (fun r => (r.1.inb, r.2.sent 5))
      = Except.ok (buffer_ptr.live [], ping) :=
  ⟨read_cb_strips_what_search_returns search_through sample_event
    (sample_sys [ReadResult.ret ping, ReadResult.fail Errno.EWOULDBLOCK]
      [WriteResult.accept 100]) ping 5 [] rfl (by decide) (by decide) rfl rfl (by decide)
    (by decide) (by decide), rfl⟩

/-! ## The return value of `event_buffer_write` -/

theorem ebw_returns_zero_or_one (e : event_t) (buf : List Byte) (s : Sys)
    (r : Int × event_t × Sys) (h : event_buffer_write e buf s = Except.ok r) :
    r.1 = 0 ∨ r.1 = 1 := by
  unfold event_buffer_write at h
  simp only [] at h
  split at h
  · cases h
  · split at h
    · split at h
      · split at h
        · cases h
        · split at h
          · cases h
          · cases h; simp
      · split at h <;> (cases h; simp)
    · split at h
      · cases h
      · cases h; simp

/-- C21 (evaluation at the failing inputs): with the unflushed bytes `[1, 2]` in the output
buffer, `event_buffer_write` of `[3]` returns 1 although no byte of the payload has
been sent (nothing reached the descriptor, no `write` call is in the log). With an
empty output buffer and a `write` that fails with errno 104 it does not return -1: no
value is returned at all, the call ends in the `buffer_add` on the released buffer. -/
theorem event_buffer_write_return_value :
    (event_buffer_write { sample_event with out := buffer_ptr.live [1, 2] } [3]
        (sample_sys [] [WriteResult.accept 9])).map
          (fun r => (r.1, r.2.1.out, r.2.2.sent 5, r.2.2.log))
      = Except.ok (1, buffer_ptr.live [1, 2, 3], [], []) ∧
    event_buffer_write sample_event [1, 2, 3]
        (sample_sys [] [WriteResult.fail (Errno.hard 104)])
      = Except.error Fault.useAfterFree := by
  refine ⟨rfl, rfl⟩

/-! ## Interrupted reads -/

theorem seen_log_read (s : Sys) (fd : Int) :
    ({ s with log := s.log ++ [Call.read fd] } : Sys).seen = s.seen := by
  simp [Sys.seen, List.filter_append, Call.is_read]

theorem seen_teardown (e : event_t) (fd : Int) (s s1 : Sys) (h : s.seen = s1.seen) :
    (close (del_event e (call_error_fn e fd s)).2 fd).seen
      = (close (del_event e (call_error_fn e fd s1)).2 fd).seen := by
  simp only [Sys.seen, Prod.mk.injEq] at h
  obtain ⟨h1, h2, h3, h4⟩ := h
  cases hf : e.error_fn <;> cases hi : s1.interest e.fd <;>
    (simp [Sys.seen, close, del_event, free_event, epoll_ctl, call_error_fn, hf, hi, h1, h2, h3,
      List.filter_append, Call.is_read]; exact h4)

theorem del_event_fst (e : event_t) (s s1 : Sys) : (del_event e s).1 = (del_event e s1).1 := rfl

theorem read_loop_without_eintr (fd : Int) (l : List ReadResult) :
    ∀ (num : Int) (e : event_t) (s s1 : Sys), s.seen = s1.seen →
      (event_buffer_read_loop fd l num e s).map (fun r => (r.1, r.2.1, r.2.2.1.seen))
        = (event_buffer_read_loop fd (without_eintr l) num e s1).map
            (fun r => (r.1, r.2.1, r.2.2.1.seen)) := by
  induction l with
  | nil =>
    intro num e s s1 h
    simp [without_eintr, event_buffer_read_loop, Except.map, seen_log_read, h]
  | cons x rest ih =>
    intro num e s s1 h
    cases x with
    | ret bs =>
      have hk : without_eintr (ReadResult.ret bs :: rest)
          = ReadResult.ret bs :: without_eintr rest := by
        simp [without_eintr]
      rw [hk]
      by_cases hn : ((List.take 1024 bs).length : Int) = 0
      · have ht := seen_teardown e fd _ _
          ((seen_log_read s fd).trans (h.trans (seen_log_read s1 fd).symm))
        simp only [event_buffer_read_loop, hn, if_true, Except.map, ht]
        rfl
      · simp only [event_buffer_read_loop, hn, if_false]
        by_cases hpr : (List.take 1024 bs).length = 1024 ∧ (0 : Byte) ∉ List.take 1024 bs
        · rw [if_pos hpr, if_pos hpr]
        · rw [if_neg hpr, if_neg hpr]
          cases hb : buffer_add (evbuf_in e) (List.take 1024 bs) with
          | error f => rfl
          | ok b =>
            simp only []
            by_cases hov : num + ((List.take 1024 bs).length : Int) > INT_MAX
            · rw [if_pos hov, if_pos hov]
            · rw [if_neg hov, if_neg hov]
              exact ih _ _ _ _ ((seen_log_read s fd).trans (h.trans (seen_log_read s1 fd).symm))
    | fail err =>
      cases err with
      | EINTR =>
        have hk : without_eintr (ReadResult.fail Errno.EINTR :: rest) = without_eintr rest := by
          simp [without_eintr]
        rw [hk]
        simp only [event_buffer_read_loop]
        exact ih _ _ _ _ ((seen_log_read s fd).trans h)
      | EWOULDBLOCK =>
        have hk : without_eintr (ReadResult.fail Errno.EWOULDBLOCK :: rest)
            = ReadResult.fail Errno.EWOULDBLOCK :: without_eintr rest := by
          simp [without_eintr]
        rw [hk]
        simp [event_buffer_read_loop, Except.map, seen_log_read, h]
      | hard code =>
        have hk : without_eintr (ReadResult.fail (Errno.hard code) :: rest)
            = ReadResult.fail (Errno.hard code) :: without_eintr rest := by
          simp [without_eintr]
        rw [hk]
        have ht := seen_teardown e fd _ _
          ((seen_log_read s fd).trans (h.trans (seen_log_read s1 fd).symm))
        simp only [event_buffer_read_loop, Except.map, ht]
        rfl

/-- C22: for every event, every kernel state and every list of pending `read` results,
`event_buffer_read` leaves its caller the same outcome (value returned, event with its
input buffer, registrations, and the log of error callbacks and teardown calls) as
with every `EINTR` failure taken out of the list. And a would-block result ends the
loop where it stands: the value counted so far is returned, the event is as it was,
and the only new log entry is the `read` call itself. -/
theorem interrupted_reads_are_invisible (e : event_t) (s : Sys) :
    (event_buffer_read e s).map read_outcome
      = (event_buffer_read e
          { s with rd := upd s.rd e.fd (without_eintr (s.rd e.fd)) }).map read_outcome ∧
    (∀ (rest : List ReadResult) (num : Int),
      event_buffer_read_loop e.fd (ReadResult.fail Errno.EWOULDBLOCK :: rest) num e s
        = Except.ok (num, e, { s with log := s.log ++ [Call.read e.fd] }, rest)) := by
  refine ⟨?_, fun rest num => rfl⟩
  have h := read_loop_without_eintr e.fd (s.rd e.fd) 0 e s
    { s with rd := upd s.rd e.fd (without_eintr (s.rd e.fd)) } rfl
  simp only [event_buffer_read, upd_same]
  cases h1 : event_buffer_read_loop e.fd (s.rd e.fd) 0 e s with
  | error f =>
    cases h2 : event_buffer_read_loop e.fd (without_eintr (s.rd e.fd)) 0 e
        { s with rd := upd s.rd e.fd (without_eintr (s.rd e.fd)) } with
    | error g => rw [h1, h2] at h; simpa [Except.map] using h
    | ok r2 => rw [h1, h2] at h; simp [Except.map] at h
  | ok r1 =>
    cases h2 : event_buffer_read_loop e.fd (without_eintr (s.rd e.fd)) 0 e
        { s with rd := upd s.rd e.fd (without_eintr (s.rd e.fd)) } with
    | error g => rw [h1, h2] at h; simp [Except.map] at h
    | ok r2 =>
      rw [h1, h2] at h
      simp only [Except.map, Except.ok.injEq, Prod.mk.injEq] at h
      obtain ⟨k1, k2, k3⟩ := h
      simp only [Except.map, read_outcome, Except.ok.injEq, Prod.mk.injEq]
      refine ⟨k1, k2, ?_⟩
      simpa [Sys.seen] using k3

/-! ## `set_nonblock` -/

/-- C23 (evaluation at the failing input): descriptor 5 is open in blocking mode with
status flags `O_RDWR`. `set_nonblock` returns 0 (success), and afterwards the file
status flags are still `O_RDWR`, without `O_NONBLOCK`: the two `fcntl` calls use
`F_GETFD`/`F_SETFD`, which read and write the file descriptor flags, where
`O_NONBLOCK` means nothing. -/
theorem set_nonblock_leaves_status_flags :
    (set_nonblock blocking_socket 5).1 = 0 ∧
    ((set_nonblock blocking_socket 5).2 5).map fd_flags.status = some 2 ∧
    (2 : Nat) &&& O_NONBLOCK = 0 ∧
    ((set_nonblock blocking_socket 5).2 5).map fd_flags.descriptor = some 0 := by
  decide

end Reactor
